import Mathlib

/-!
# socketio-server: room state machine and fixed-tick simulation

A shallow embedding of `src/app.js`.  JavaScript numbers are modelled by exact
rationals (`ℚ`), JavaScript objects used as maps by association lists in insertion
order, `Math.random()` by an explicit stream of draws, and the two timers by
explicit pending callbacks.
-/

namespace SocketioServer

/-! ## Geometry -/

/-- The `circle` literal built at `app.js:277`. -/
structure Circle where
  x : ℚ
  y : ℚ
  radius : ℚ
  deriving DecidableEq, Repr

/-- The `rect` literal built at `app.js:278`; `x`, `y` are used as its centre. -/
structure Rect where
  x : ℚ
  y : ℚ
  width : ℚ
  height : ℚ
  deriving DecidableEq, Repr

/-- `collisionCheckCircleRect` (`app.js:289-304`). -/
def collisionCheckCircleRect (circle : Circle) (rect : Rect) : Bool :=
  let distx := |circle.x - rect.x|
  let disty := |circle.y - rect.y|
  if distx > rect.width / 2 + circle.radius then false
  else if disty > rect.height / 2 + circle.radius then false
  else if distx ≤ rect.width / 2 then true
  else if disty ≤ rect.height / 2 then true
  else
    let hypot := (distx - rect.width / 2) * (distx - rect.width / 2) +
                 (disty - rect.height / 2) * (disty - rect.height / 2)
    decide (hypot ≤ circle.radius * circle.radius)

/-- Squared Euclidean distance from the circle centre to the nearest point of the closed
rectangle centred at `(rect.x, rect.y)` (reference quantity, not in the source). -/
def nearestDistSq (circle : Circle) (rect : Rect) : ℚ :=
  (max (|circle.x - rect.x| - rect.width / 2) 0) ^ 2 +
  (max (|circle.y - rect.y| - rect.height / 2) 0) ^ 2

/-- Reflection of a circle across the x-axis (centre `y` negated). -/
def Circle.flipY (c : Circle) : Circle := { c with y := -c.y }

/-- Reflection of a circle across the y-axis (centre `x` negated). -/
def Circle.flipX (c : Circle) : Circle := { c with x := -c.x }

/-- Reflection of a rectangle across the x-axis (centre `y` negated). -/
def Rect.flipY (r : Rect) : Rect := { r with y := -r.y }

/-- Reflection of a rectangle across the y-axis (centre `x` negated). -/
def Rect.flipX (r : Rect) : Rect := { r with x := -r.x }

/-! ## JavaScript objects used as maps

`games`, `sockets` and `players` are objects keyed by strings.  They are association lists
in insertion order, which is the order `Object.keys` and `Object.entries` enumerate
(socket.io ids and room names are taken not to be array-index strings). -/

/-- Property read `obj[k]`; `none` is `undefined`. -/
def lookup {α : Type} (k : String) : List (String × α) → Option α
  | [] => none
  | (k', v) :: rest => if k' = k then some v else lookup k rest

/-- Property write `obj[k] = v`: an existing key keeps its place, a new key goes last. -/
def assign {α : Type} (k : String) (v : α) : List (String × α) → List (String × α)
  | [] => [(k, v)]
  | (k', v') :: rest => if k' = k then (k, v) :: rest else (k', v') :: assign k v rest

/-- In-place update of the object stored at `obj[k]` (a field write `obj[k].f = ...`). -/
def modify {α : Type} (k : String) (f : α → α) : List (String × α) → List (String × α)
  | [] => []
  | (k', v) :: rest => if k' = k then (k', f v) :: rest else (k', v) :: modify k f rest

/-- Property removal `delete obj[k]`: afterwards the key is absent, the other entries keep
their order. -/
def remove {α : Type} (k : String) : List (String × α) → List (String × α)
  | [] => []
  | (k', v) :: rest => if k' = k then remove k rest else (k', v) :: remove k rest

/-! ## Randomness

`Math.random()` is a stream of draws; a function that draws `k` times returns the stream
advanced by `k`. -/

/-- The stream of future results of `Math.random()`. -/
abbrev Rand := ℕ → ℚ

/-- The stream after `k` draws. -/
def Rand.drop (rnd : Rand) (k : ℕ) : Rand := fun n => rnd (n + k)

/-- Every draw lies in `[0, 1)`, as `Math.random()` guarantees. -/
def Rand.Valid (rnd : Rand) : Prop := ∀ n, 0 ≤ rnd n ∧ rnd n < 1

/-! ## Number arithmetic

A JavaScript number is an IEEE-754 binary64 value, and every arithmetic operation returns
the exact result rounded to the nearest such value, ties to the one with the even
significand.  Finite values are rationals; the values met here stay far below the overflow
threshold, so infinities and NaN are not represented.  The rounding is applied in
`getRandomInt` and in the item literal of `getItems`, whose value ranges depend on it; the
remaining arithmetic is kept exact. -/

/-- The integer nearest to `q`, the even one when `q` lies half-way between two. -/
def roundHalfEven (q : ℚ) : ℤ :=
  if q - ⌊q⌋ < 1 / 2 then ⌊q⌋
  else if 1 / 2 < q - ⌊q⌋ then ⌊q⌋ + 1
  else if ⌊q⌋ % 2 = 0 then ⌊q⌋ else ⌊q⌋ + 1

/-- The binary64 exponent of `x`: the `e` with `2^e ≤ |x| < 2^(e+1)`, and -1022 for
subnormal values and zero's neighbours below `2^-1022`. -/
def binade (x : ℚ) : ℤ := max (Int.log 2 |x|) (-1022)

/-- The binary64 value of the exact result `x`: `x` rounded to the nearest multiple of
`2^(e-52)`, the spacing of the doubles with exponent `e = binade x`, ties to even. -/
def roundDouble (x : ℚ) : ℚ :=
  roundHalfEven (x / 2 ^ (binade x - 52)) * 2 ^ (binade x - 52)

/-- The finite binary64 values (exponent range unbounded above): a significand of at most
53 bits times a power of two that is at least `2^-1074`. -/
def IsDouble (d : ℚ) : Prop := ∃ m e : ℤ, |m| < 2 ^ 53 ∧ -1074 ≤ e ∧ d = m * 2 ^ e

/-- Every draw is a binary64 value, as every result of `Math.random()` is. -/
def Rand.Doubles (rnd : Rand) : Prop := ∀ n, IsDouble (rnd n)

/-! ## Data model (`app.js:5-45`) -/

/-- `WIDTH` (`app.js:10`). -/
def WIDTH : ℚ := 1000

/-- `HEIGHT` (`app.js:11`). -/
def HEIGHT : ℚ := 600

/-- `DEFAULT_SPEED` (`app.js:13`). -/
def DEFAULT_SPEED : ℚ := 10

/-- A `position` object. -/
structure Position where
  x : ℚ
  y : ℚ
  deriving DecidableEq, Repr

/-- The `keys` object of a player. -/
structure Keys where
  up : Bool
  down : Bool
  left : Bool
  right : Bool
  deriving DecidableEq, Repr

/-- A player object (`app.js:81-97`). -/
structure Player where
  name : String
  position : Position
  speed : ℚ
  color : String
  radius : ℚ
  keys : Keys
  alive : Bool
  deriving DecidableEq, Repr

/-- An item object (`app.js:231-240`). -/
structure Item where
  id : ℤ
  position : Position
  speed : ℚ
  width : ℚ
  height : ℚ
  deriving DecidableEq, Repr

/-- A room object `games[room]` (`app.js:61-72`).  `host` is `none` when the field holds
`undefined`; `items` is the object keyed `0 .. n-1`, stored as the list of its values. -/
structure Game where
  host : Option String
  players : List (String × Player)
  items : List Item
  width : ℚ
  height : ℚ
  started : Bool
  startTimestamp : ℤ
  countDown : ℚ
  gameOver : Bool
  winner : String
  deriving DecidableEq, Repr

/-- A pending `setTimeout` callback of `startGame` (`app.js:201-209`): the room name it
captured and its delay in milliseconds. -/
structure Timeout where
  room : String
  delay : ℚ
  deriving DecidableEq, Repr

/-- The process-wide state: the globals `games`, `sockets` and `increaseSpeed`, and the
pending countdown callbacks.  `increaseSpeed` is the room captured by the live speed-ramp
interval, `none` when the variable is `undefined` or its interval has been cleared. -/
structure Server where
  games : List (String × Game)
  sockets : List (String × String)
  timeouts : List Timeout
  increaseSpeed : Option String
  deriving DecidableEq, Repr

/-- The state before any connection: `sockets = []`, `games = {}`, no timer. -/
def Server.empty : Server := ⟨[], [], [], none⟩

/-! ## Helpers (`app.js:213-243`, `app.js:341`) -/

/-- `getRandomInt` (`app.js:341`) applied to the draw `r`: `max - min + 1` is an exact
integer, the product and the sum are each rounded to a double, and `Math.floor` is exact. -/
def getRandomInt (min max : ℤ) (r : ℚ) : ℤ :=
  ⌊roundDouble (roundDouble (r * ((max : ℚ) - min + 1)) + min)⌋

/-- The conversion `x >> 0`: truncate towards zero, then wrap into the signed 32-bit range. -/
def toInt32 (q : ℚ) : ℤ :=
  let t : ℤ := if 0 ≤ q then ⌊q⌋ else ⌈q⌉
  (t + 2147483648) % 4294967296 - 2147483648

/-- `getRandomColor` (`app.js:219-224`): three draws. -/
def getRandomColor (rnd : Rand) : String × Rand :=
  let r := toInt32 (rnd 0 * 255)
  let g := toInt32 (rnd 1 * 255)
  let b := toInt32 (rnd 2 * 255)
  ("rgba(" ++ toString r ++ ", " ++ toString g ++ ", " ++ toString b ++ ", 0.9)", rnd.drop 3)

/-- `getRoomCount` (`app.js:215`); `none` is the `TypeError` raised when `games[room]` is
`undefined`. -/
def getRoomCount (s : Server) (room : String) : Option ℕ :=
  (lookup room s.games).map (fun g => g.players.length)

/-- One iteration of the loop of `getItems` (`app.js:230-240`): five draws, in the order
size, id, x, y, speed; every product and every sum is rounded to a double. -/
def newItem (rnd : Rand) : Item :=
  let size := getRandomInt 30 50 (rnd 0)
  { id := getRandomInt 0 4 (rnd 1)
    position :=
      { x := roundDouble (roundDouble (rnd 2 * WIDTH) + 20)
        y := roundDouble (rnd 3 * (-200)) }
    speed := roundDouble (roundDouble (rnd 4 * 7) + 3)
    width := size
    height := size }

/-- The loop of `getItems` with `n` iterations left. -/
def getItemsLoop : ℕ → Rand → List Item
  | 0, _ => []
  | n + 1, rnd => newItem rnd :: getItemsLoop n (rnd.drop 5)

/-- `getItems` (`app.js:226-243`), `itemCount = 15`. -/
def getItems (rnd : Rand) : List Item × Rand :=
  (getItemsLoop 15 rnd, rnd.drop 75)

/-- `resetItem` (`app.js:326-329`) on the item `games[room].items[i]`: two draws. -/
def resetItem (item : Item) (rnd : Rand) : Item × Rand :=
  ({ item with position := { x := rnd 0 * WIDTH + 20, y := rnd 1 * (-200) } }, rnd.drop 2)

/-! ## Simulation step (`app.js:245-338`) -/

/-- The loop of `updateItems` (`app.js:246-249`). -/
def updateItemsLoop : List Item → Rand → List Item × Rand
  | [], rnd => ([], rnd)
  | item :: rest, rnd =>
    if item.position.y > HEIGHT then
      let r := resetItem item rnd
      let out := updateItemsLoop rest r.2
      (r.1 :: out.1, out.2)
    else
      let out := updateItemsLoop rest rnd
      ({ item with position := { item.position with y := item.position.y + item.speed } }
        :: out.1, out.2)

/-- `updateItems` (`app.js:245-250`). -/
def updateItems (g : Game) (rnd : Rand) : Game × Rand :=
  let out := updateItemsLoop g.items rnd
  ({ g with items := out.1 }, out.2)

/-- `increaseItemSpeed` (`app.js:252-256`). -/
def increaseItemSpeed (g : Game) (speed : ℚ) : Game :=
  { g with items := g.items.map (fun item => { item with speed := item.speed + speed }) }

/-- The `up` line of `updatePlayers` (`app.js:261`). -/
def moveUp (p : Player) : Player :=
  if p.keys.up ∧ p.position.y > 0 + p.radius + 20
  then { p with position := { p.position with y := p.position.y - p.speed } } else p

/-- The `down` line of `updatePlayers` (`app.js:262`). -/
def moveDown (g : Game) (p : Player) : Player :=
  if p.keys.down ∧ p.position.y < g.height - p.radius - 5
  then { p with position := { p.position with y := p.position.y + p.speed } } else p

/-- The `left` line of `updatePlayers` (`app.js:263`). -/
def moveLeft (p : Player) : Player :=
  if p.keys.left ∧ p.position.x > 0 + p.radius + 5
  then { p with position := { p.position with x := p.position.x - p.speed } } else p

/-- The `right` line of `updatePlayers` (`app.js:264`). -/
def moveRight (g : Game) (p : Player) : Player :=
  if p.keys.right ∧ p.position.x < g.width - p.radius - 5
  then { p with position := { p.position with x := p.position.x + p.speed } } else p

/-- The body of the loop of `updatePlayers` (`app.js:260-265`) for one player: the four
lines in source order, each reading the position left by the previous one. -/
def movePlayer (g : Game) (p : Player) : Player :=
  if p.alive then moveRight g (moveLeft (moveDown g (moveUp p))) else p

/-- `updatePlayers` (`app.js:258-267`). -/
def updatePlayers (g : Game) : Game :=
  { g with players := g.players.map (fun e => (e.1, movePlayer g e.2)) }

/-- The inner loop of `collisionDetection` (`app.js:273-285`) for item `i`: the players in
iteration order, the item re-read from the room at each player. -/
def collidePlayers (item : Item) : List (String × Player) → Rand →
    Item × List (String × Player) × Rand
  | [], rnd => (item, [], rnd)
  | (key, player) :: rest, rnd =>
    if player.alive then
      let circle : Circle := ⟨player.position.x, player.position.y, player.radius⟩
      let rect : Rect := ⟨item.position.x, item.position.y, item.width, item.height⟩
      if collisionCheckCircleRect circle rect then
        let r := resetItem item rnd
        let out := collidePlayers r.1 rest r.2
        (out.1, (key, { player with alive := false }) :: out.2.1, out.2.2)
      else
        let out := collidePlayers item rest rnd
        (out.1, (key, player) :: out.2.1, out.2.2)
    else
      let out := collidePlayers item rest rnd
      (out.1, (key, player) :: out.2.1, out.2.2)

/-- The outer loop of `collisionDetection` (`app.js:272-286`) over the items. -/
def collideItems : List Item → List (String × Player) → Rand →
    List Item × List (String × Player) × Rand
  | [], players, rnd => ([], players, rnd)
  | item :: rest, players, rnd =>
    let one := collidePlayers item players rnd
    let out := collideItems rest one.2.1 one.2.2
    (one.1 :: out.1, out.2.1, out.2.2)

/-- `collisionDetection` (`app.js:270-287`). -/
def collisionDetection (g : Game) (rnd : Rand) : Game × Rand :=
  let out := collideItems g.items g.players rnd
  ({ g with items := out.1, players := out.2.1 }, out.2.2)

/-- The counting loop of `checkGameOver` (`app.js:308-315`): `(aliveCounter, winnerId)`. -/
def countAlive (players : List (String × Player)) : ℕ × String :=
  players.foldl (fun acc e => if e.2.alive then (acc.1 + 1, e.1) else acc) (0, "")

/-- `checkGameOver` (`app.js:307-324`). -/
def checkGameOver (g : Game) : Game :=
  let counted := countAlive g.players
  if counted.1 = 1 then
    { g with
      winner := counted.2
      gameOver := true
      players := modify counted.2 (fun p => { p with speed := 20 }) g.players }
  else g

/-- `checkHost` (`app.js:333-338`); an `undefined` host indexes `sockets` as `"undefined"`. -/
def checkHost (sockets : List (String × String)) (g : Game) : Game :=
  let host := g.host
  if lookup (host.getD "undefined") sockets = none then
    { g with host := (g.players.head?).map Prod.fst }
  else g

/-- The body of the game loop for one room (`app.js:164-170`); the broadcast is not
modelled. -/
def tickRoom (sockets : List (String × String)) (g : Game) (rnd : Rand) : Game × Rand :=
  let g1 := updatePlayers (checkHost sockets g)
  if !g1.gameOver && g1.started then
    let u := updateItems g1 rnd
    let c := collisionDetection u.1 u.2
    (checkGameOver c.1, c.2)
  else (g1, rnd)

/-! ## Round start (`app.js:179-211`) -/

/-- The synchronous part of `startGame` on the room object (`app.js:183-198`). -/
def resetRound (g : Game) (now : ℤ) : Game :=
  let g1 := { g with gameOver := false, started := true, startTimestamp := now, items := [] }
  let winner := g1.winner
  let g2 := if winner ≠ "" ∧ (lookup winner g1.players).isSome then
      { g1 with
        players := modify winner (fun p => { p with speed := DEFAULT_SPEED }) g1.players
        winner := "" }
    else g1
  { g2 with players := g2.players.map (fun e => (e.1, { e.2 with alive := true })) }

/-- `startGame` (`app.js:179-211`) at time `now`; `none` is the `TypeError` of
`getRoomCount` on an unregistered room.  The countdown callback is queued, not run. -/
def startGame (s : Server) (room : String) (now : ℤ) : Option Server :=
  match getRoomCount s room, lookup room s.games with
  | some count, some g =>
    if count > 1 then
      let g1 := resetRound g now
      some { s with
        games := assign room g1 s.games
        timeouts := s.timeouts ++ [⟨room, g1.countDown * 1000⟩] }
    else some s
  | _, _ => none

/-- The countdown callback of `startGame` (`app.js:201-209`) on the room object: the items
are populated (the interval swap is on the server state). -/
def populateItems (g : Game) (rnd : Rand) : Game × Rand :=
  let out := getItems rnd
  ({ g with items := out.1 }, out.2)

/-! ## Session gateway (`app.js:48-159`) -/

/-- The room literal created by the first join (`app.js:61-72`). -/
def newGame (socketId : String) : Game :=
  { host := some socketId
    players := []
    items := []
    width := WIDTH
    height := HEIGHT
    started := false
    startTimestamp := 0
    countDown := 3
    gameOver := false
    winner := "" }

/-- The player literal of the join handler (`app.js:81-97`): draws x, y, then the colour. -/
def newPlayer (g : Game) (name : String) (rnd : Rand) : Player × Rand :=
  let color := getRandomColor (rnd.drop 2)
  ({ name := name
     position := { x := rnd 0 * g.width, y := rnd 1 * g.height }
     speed := DEFAULT_SPEED
     color := color.1
     radius := 20
     keys := { up := false, down := false, left := false, right := false }
     alive := true }, color.2)

/-- The write `games[room].players[socket.id] = {...}` of the join handler. -/
def addPlayer (g : Game) (socketId name : String) (rnd : Rand) : Game × Rand :=
  let made := newPlayer g name rnd
  ({ g with players := assign socketId made.1 g.players }, made.2)

/-- The own property names of `Object.prototype`.  `games` is a plain `{}`, so the read
`games[room]` for one of these names yields the inherited value, which is not `undefined`
and has no `players`, unless `games` has an own entry of that name. -/
def objectPrototypeKeys : List String :=
  ["constructor", "__defineGetter__", "__defineSetter__", "hasOwnProperty",
   "__lookupGetter__", "__lookupSetter__", "isPrototypeOf", "propertyIsEnumerable",
   "toString", "valueOf", "__proto__", "toLocaleString"]

/-- The writes of the join handler (`app.js:54-97`) when none of them raises: the connection
map, the room literal if `games[room]` is absent, and the player. -/
def joinRoom (s : Server) (socketId room name : String) (rnd : Rand) : Server × Rand :=
  let sockets := assign socketId room s.sockets
  let g := (lookup room s.games).getD (newGame socketId)
  let joined := addPlayer g socketId name rnd
  ({ s with sockets := sockets, games := assign room joined.1 s.games }, joined.2)

/-- The join handler (`app.js:53-101`) for connection `socketId`; emits are not modelled.
When `room` is not an own key of `games` but a name inherited from `Object.prototype`, the
test `games[room] == undefined` (`app.js:60`) is false, no room is created, and the write
to `games[room].players[socket.id]` (`app.js:81`) raises a `TypeError`: `none`. -/
def onJoin (s : Server) (socketId room name : String) (rnd : Rand) :
    Option (Server × Rand) :=
  match lookup room s.games with
  | some _ => some (joinRoom s socketId room name rnd)
  | none =>
    if room ∈ objectPrototypeKeys then none
    else some (joinRoom s socketId room name rnd)

/-- One write of the `keydown` / `keyup` handlers (`app.js:122-158`) on the room object:
`players[socket.id].keys.<direction> = pressed`; other direction strings fall through the
`switch`.  `none` is the `TypeError` for a missing player. -/
def setKey (g : Game) (socketId direction : String) (pressed : Bool) : Option Game :=
  if direction = "up" ∨ direction = "down" ∨ direction = "right" ∨ direction = "left" then
    match lookup socketId g.players with
    | none => none
    | some _ =>
      some { g with players := modify socketId (fun p =>
        if direction = "up" then { p with keys := { p.keys with up := pressed } }
        else if direction = "down" then { p with keys := { p.keys with down := pressed } }
        else if direction = "right" then { p with keys := { p.keys with right := pressed } }
        else { p with keys := { p.keys with left := pressed } }) g.players }
  else some g

/-! ## Room histories

Everything the server does to one room object while its membership is fixed. -/

/-- An event acting on a room: a key event of a connection, a tick of the game loop, a
`start`, the countdown callback, or a firing of the speed ramp. -/
inductive RoomEvent where
  | keydown (socketId direction : String)
  | keyup (socketId direction : String)
  | tick (sockets : List (String × String)) (rnd : Rand)
  | start (now : ℤ)
  | countdown (rnd : Rand)
  | ramp

/-- The room after one event.  A key event of a connection without a player raises in the
source and leaves the room as it was; `start` is subject to the player-count gate. -/
def RoomEvent.apply (g : Game) : RoomEvent → Game
  | .keydown socketId direction => (setKey g socketId direction true).getD g
  | .keyup socketId direction => (setKey g socketId direction false).getD g
  | .tick sockets rnd => (tickRoom sockets g rnd).1
  | .start now => if g.players.length > 1 then resetRound g now else g
  | .countdown rnd => (populateItems g rnd).1
  | .ramp => increaseItemSpeed g 5

/-- The room after a sequence of events, oldest first. -/
def runRoom (g : Game) (events : List RoomEvent) : Game :=
  events.foldl RoomEvent.apply g

/-! ## Server events (`app.js:48-173`, `app.js:201-209`)

Each handler takes the connection's id and the value of its closure variable `room`; `none`
is an uncaught `TypeError`. -/

/-- The disconnect handler (`app.js:104-116`). -/
def onDisconnect (s : Server) (socketId room : String) : Option Server :=
  if room ≠ "" then
    match lookup room s.games with
    | none => none
    | some g =>
      let g1 := { g with players := remove socketId g.players }
      let s1 := { s with
        games := assign room g1 s.games
        sockets := remove socketId s.sockets }
      match getRoomCount s1 room with
      | none => none
      | some roomCount =>
        if roomCount = 0 then
          some { s1 with games := remove room s1.games, increaseSpeed := none }
        else some s1
  else some s

/-- The start handler (`app.js:118-120`): `startGame(room)` with no test on `room`. -/
def onStart (s : Server) (room : String) (now : ℤ) : Option Server :=
  startGame s room now

/-- The `case` labels of the `switch` in the key handlers. -/
def isDirection (direction : String) : Bool :=
  direction = "up" || direction = "down" || direction = "right" || direction = "left"

/-- The common shape of the `keydown` and `keyup` handlers (`app.js:122-158`). -/
def keyEvent (s : Server) (socketId room direction : String) (pressed : Bool) :
    Option Server :=
  if room ≠ "" then
    if isDirection direction then
      match lookup room s.games with
      | none => none
      | some g =>
        (setKey g socketId direction pressed).map
          (fun g1 => { s with games := assign room g1 s.games })
    else some s
  else some s

/-- The keydown handler (`app.js:122-139`). -/
def onKeydown (s : Server) (socketId room direction : String) : Option Server :=
  keyEvent s socketId room direction true

/-- The keyup handler (`app.js:141-158`). -/
def onKeyup (s : Server) (socketId room direction : String) : Option Server :=
  keyEvent s socketId room direction false

/-- The loop of the game loop over `Object.keys(games)` (`app.js:163-172`). -/
def gameLoopRooms (sockets : List (String × String)) :
    List (String × Game) → Rand → List (String × Game) × Rand
  | [], rnd => ([], rnd)
  | (room, g) :: rest, rnd =>
    let t := tickRoom sockets g rnd
    let out := gameLoopRooms sockets rest t.2
    ((room, t.1) :: out.1, out.2)

/-- One firing of the game loop (`app.js:162-173`). -/
def gameLoop (s : Server) (rnd : Rand) : Server × Rand :=
  let out := gameLoopRooms s.sockets s.games rnd
  ({ s with games := out.1 }, out.2)

/-- The countdown callback of `startGame` (`app.js:201-209`) for the room it captured: the
items are populated, the live interval is cleared and a new one, capturing the same room,
is stored in `increaseSpeed`. -/
def countdownCallback (s : Server) (room : String) (rnd : Rand) : Option (Server × Rand) :=
  match lookup room s.games with
  | none => none
  | some g =>
    let p := populateItems g rnd
    some ({ s with games := assign room p.1 s.games, increaseSpeed := some room }, p.2)

/-- The interval callback (`app.js:205-207`): `increaseItemSpeed(room, 5)`. -/
def rampCallback (s : Server) (room : String) : Option Server :=
  match lookup room s.games with
  | none => none
  | some g => some { s with games := assign room (increaseItemSpeed g 5) s.games }

/-- The server together with its open connections, each with the current value of its
closure variable `room` (`app.js:50`). -/
structure World where
  server : Server
  conns : List (String × String)

/-- The process at start-up. -/
def World.init : World := ⟨Server.empty, []⟩

/-- What can happen to the process: a connection opens, a connection emits one of the five
client events, the game loop fires, the oldest pending countdown fires, the live speed-ramp
interval fires. -/
inductive Event where
  | connect (socketId : String)
  | join (socketId room name : String) (rnd : Rand)
  | disconnect (socketId : String)
  | start (socketId : String) (now : ℤ)
  | keydown (socketId direction : String)
  | keyup (socketId direction : String)
  | tick (rnd : Rand)
  | countdown (rnd : Rand)
  | ramp

/-- The process after one event; `none` is an uncaught `TypeError`.  An event that cannot
occur (the id of a new connection is in use, a client event of a connection that is not
open, a timer that is not pending) leaves the state as it is. -/
def World.step (w : World) : Event → Option World
  | .connect socketId =>
    match lookup socketId w.conns with
    | none => some { w with conns := assign socketId "" w.conns }
    | some _ => some w
  | .join socketId room name rnd =>
    match lookup socketId w.conns with
    | none => some w
    | some _ =>
      (onJoin w.server socketId room name rnd).map
        (fun out => { server := out.1, conns := assign socketId room w.conns })
  | .disconnect socketId =>
    match lookup socketId w.conns with
    | none => some w
    | some room =>
      (onDisconnect w.server socketId room).map
        (fun s => { server := s, conns := remove socketId w.conns })
  | .start socketId now =>
    match lookup socketId w.conns with
    | none => some w
    | some room => (onStart w.server room now).map (fun s => { w with server := s })
  | .keydown socketId direction =>
    match lookup socketId w.conns with
    | none => some w
    | some room =>
      (onKeydown w.server socketId room direction).map (fun s => { w with server := s })
  | .keyup socketId direction =>
    match lookup socketId w.conns with
    | none => some w
    | some room =>
      (onKeyup w.server socketId room direction).map (fun s => { w with server := s })
  | .tick rnd => some { w with server := (gameLoop w.server rnd).1 }
  | .countdown rnd =>
    match w.server.timeouts with
    | [] => some w
    | t :: rest =>
      (countdownCallback { w.server with timeouts := rest } t.room rnd).map
        (fun out => { w with server := out.1 })
  | .ramp =>
    match w.server.increaseSpeed with
    | none => some w
    | some room => (rampCallback w.server room).map (fun s => { w with server := s })

/-- The process after a sequence of events, oldest first; `none` once a handler has raised. -/
def World.run (w : World) : List Event → Option World
  | [] => some w
  | e :: rest => (w.step e).bind (fun w1 => World.run w1 rest)

/-- The states the process can be in between events. -/
inductive Reachable : World → Prop where
  | init : Reachable World.init
  | step (w w2 : World) (e : Event) : Reachable w → w.step e = some w2 → Reachable w2

/-! ## Specification predicates and sample inputs -/

/-- The test made for one player against the item as it currently stands. -/
def hits (item : Item) (player : Player) : Bool :=
  player.alive && collisionCheckCircleRect
    ⟨player.position.x, player.position.y, player.radius⟩
    ⟨item.position.x, item.position.y, item.width, item.height⟩

/-- What is tracked of a player along a room history: radius 20, speed 10 or 20, and a
position no further out than its start or one 20-unit step beyond the margin box. -/
structure PlayerOk (x0 y0 : ℚ) (p : Player) : Prop where
  radius_eq : p.radius = 20
  speed_eq : p.speed = 10 ∨ p.speed = 20
  x_lo : min x0 5 ≤ p.position.x
  x_hi : p.position.x ≤ max x0 995
  y_lo : min y0 20 ≤ p.position.y
  y_hi : p.position.y ≤ max y0 595

/-- The tracked connection has a player in the map, and that player is `PlayerOk`. -/
def Tracked (x0 y0 : ℚ) (id : String) (players : List (String × Player)) : Prop :=
  ∃ p, lookup id players = some p ∧ PlayerOk x0 y0 p

/-- The room has the default bounds and the tracked player is in it. -/
def Tracks (x0 y0 : ℚ) (id : String) (g : Game) : Prop :=
  g.width = 1000 ∧ g.height = 600 ∧ Tracked x0 y0 id g.players

/-- Sample draws: the first is 3/100, every later one 1/2. -/
def marginRnd : Rand := fun n => if n = 0 then 3 / 100 else 1 / 2

/-- Sample history: `a` joins a fresh room (landing at x = 30, y = 300), holds `left`, and
one tick passes. -/
def marginRun : Game :=
  runRoom (addPlayer (newGame "a") "a" "ann" marginRnd).1
    [.keydown "a" "left", .tick [("a", "r")] marginRnd]

/-- The players with `alive = true`, in iteration order. -/
def alivePlayers (g : Game) : List (String × Player) :=
  g.players.filter (fun e => e.2.alive)

/-- The keys of an object are pairwise distinct. -/
def DistinctKeys {α : Type} (obj : List (String × α)) : Prop :=
  (obj.map Prod.fst).Nodup

/-- A sample player at (100, 100) with the join defaults except `alive` and `speed`. -/
def samplePlayer (alive : Bool) (speed : ℚ) : Player :=
  { name := "p"
    position := ⟨100, 100⟩
    speed := speed
    color := "rgba(0, 0, 0, 0.9)"
    radius := 20
    keys := ⟨false, false, false, false⟩
    alive := alive }

/-- A sample started room with the given players, winner field and `gameOver` flag. -/
def sampleRoom (players : List (String × Player)) (winner : String) (gameOver : Bool) : Game :=
  { host := some "a"
    players := players
    items := []
    width := WIDTH
    height := HEIGHT
    started := true
    startTimestamp := 0
    countDown := 3
    gameOver := gameOver
    winner := winner }

/-- Sample room mid-round: `a` is out, `b` is the only player alive. -/
def lastStanding : Game :=
  sampleRoom [("a", samplePlayer false 10), ("b", samplePlayer true 10)] "" false

/-- Sample room mid-round: both players were eliminated in the same tick. -/
def allOut : Game :=
  sampleRoom [("a", samplePlayer false 10), ("b", samplePlayer false 10)] "" false

/-- Sample room after a round that `b` won. -/
def wonRoom : Game :=
  sampleRoom [("a", samplePlayer false 10), ("b", samplePlayer true 20)] "b" true

/-- Sample room after a round that `a` won, `a` having disconnected since: `b` and `c`
remain. -/
def staleWinnerRoom : Game :=
  sampleRoom [("b", samplePlayer false 10), ("c", samplePlayer false 10)] "a" true

/-- Sample room with a single player. -/
def loneRoom : Game :=
  sampleRoom [("a", samplePlayer true 10)] "" false

/-- The server holding the one room `"r"`, its players connected, no timer pending. -/
def serverWith (g : Game) : Server :=
  { games := [("r", g)]
    sockets := g.players.map (fun e => (e.1, "r"))
    timeouts := []
    increaseSpeed := none }

/-- Sample draws at the ends of `[0, 1)`: the size draw of the first item is `1 - 2^-52`,
its y-draw is 0 and its speed draw is `1 - 2^-53`, the largest double below 1; every other
draw is 1/2. -/
def edgeRnd : Rand := fun n =>
  if n = 0 then 1 - 1 / 2 ^ 52 else if n = 3 then 0 else if n = 4 then 1 - 1 / 2 ^ 53
  else 1 / 2

/-- A sample player at `(x, y)`: alive, radius 20, speed 10, no key held. -/
def samplePlayerAt (x y : ℚ) : Player :=
  { samplePlayer true 10 with position := ⟨x, y⟩ }

/-- Sample room mid-round: `a` at (100, 100) and `b` at (110, 100) both overlap the single
30×30 item centred at (100, 90). -/
def crowdedRoom : Game :=
  { sampleRoom [("a", samplePlayerAt 100 100), ("b", samplePlayerAt 110 100)] "" false with
    items := [⟨0, ⟨100, 90⟩, 5, 30, 30⟩] }

/-- Sample draws: every draw is 1/2. -/
def halfRnd : Rand := fun _ => 1 / 2

/-- The sample room `crowdedRoom` with its two players visited in the other order. -/
def crowdedRoomSwapped : Game :=
  { crowdedRoom with players := crowdedRoom.players.reverse }

/-- The y-coordinate after one tick as the movement rule words it: `up` first, then `down`
on the value `up` left. -/
def stepY (height : ℚ) (p : Player) : ℚ :=
  let y1 := if p.keys.up = true ∧ p.position.y > p.radius + 20
    then p.position.y - p.speed else p.position.y
  if p.keys.down = true ∧ y1 < height - p.radius - 5 then y1 + p.speed else y1

/-- The x-coordinate after one tick as the movement rule words it: `left` first, then
`right` on the value `left` left. -/
def stepX (width : ℚ) (p : Player) : ℚ :=
  let x1 := if p.keys.left = true ∧ p.position.x > p.radius + 5
    then p.position.x - p.speed else p.position.x
  if p.keys.right = true ∧ x1 < width - p.radius - 5 then x1 + p.speed else x1

/-- The player after one tick as the movement rule words it; a player who is not alive is
left as it is. -/
def integrate (g : Game) (p : Player) : Player :=
  if p.alive then { p with position := ⟨stepX g.width p, stepY g.height p⟩ } else p

/-- A sample player at (100, 100) who is not alive and holds `up`. -/
def deadMover : Player :=
  { samplePlayer false 10 with keys := ⟨true, false, false, false⟩ }

/-- The keys of an object, in iteration order (`Object.keys`). -/
def keysOf {α : Type} (obj : List (String × α)) : List String := obj.map Prod.fst

/-- A room has at least one player and a defined host. -/
def GameOk (g : Game) : Prop := g.players ≠ [] ∧ g.host.isSome = true

/-- Every room of `l` is still registered in `l2` with the same player ids, and every room
of `l2` comes from a room of `l` and is `GameOk` if that one was. -/
def Evolves (l l2 : List (String × Game)) : Prop :=
  (∀ r g, lookup r l = some g →
    ∃ g2, lookup r l2 = some g2 ∧ keysOf g2.players = keysOf g.players) ∧
  (∀ x ∈ l2, ∃ g, (x.1, g) ∈ l ∧ (GameOk g → GameOk x.2))

/-- What holds of the process between events: every registered room has a player and a
host; every open connection whose `room` variable is not empty has a player in that room,
which is registered; the room captured by the live interval is registered. -/
structure Inv (w : World) : Prop where
  rooms : ∀ x ∈ w.server.games, GameOk x.2
  conns : ∀ c r, lookup c w.conns = some r → r ≠ "" →
    ∃ g, lookup r w.server.games = some g ∧ c ∈ keysOf g.players
  ramp : ∀ r, w.server.increaseSpeed = some r → ∃ g, lookup r w.server.games = some g

/-- What the join handler's player literal fixes, for a room of the given bounds. -/
structure FreshPlayer (width height : ℚ) (name : String) (p : Player) : Prop where
  name_eq : p.name = name
  speed_eq : p.speed = 10
  radius_eq : p.radius = 20
  keys_eq : p.keys = ⟨false, false, false, false⟩
  alive_eq : p.alive = true
  x_ge : 0 ≤ p.position.x
  x_lt : p.position.x < width
  y_ge : 0 ≤ p.position.y
  y_lt : p.position.y < height

/-- Sample history: `a` and `b` join `r1`, `a` then joins `r2` and disconnects, and the game
loop fires once. -/
def ghostTrace : List Event :=
  [.connect "a", .connect "b", .join "a" "r1" "ann" halfRnd, .join "b" "r1" "bob" halfRnd,
   .join "a" "r2" "ann" halfRnd, .disconnect "a", .tick halfRnd]

/-- Sample history: `a` and `b` join `r`, `a` starts the round, both disconnect. -/
def orphanTrace : List Event :=
  [.connect "a", .connect "b", .join "a" "r" "ann" halfRnd, .join "b" "r" "bob" halfRnd,
   .start "a" 0, .disconnect "a", .disconnect "b"]

/-- Sample history: rooms `r1` (players `a`, `b`) and `r2` (players `c`, `d`) are started one
after the other and both countdowns fire, `r1` first. -/
def twoRoomTrace : List Event :=
  [.connect "a", .connect "b", .connect "c", .connect "d",
   .join "a" "r1" "ann" halfRnd, .join "b" "r1" "bob" halfRnd,
   .join "c" "r2" "cat" halfRnd, .join "d" "r2" "dan" halfRnd,
   .start "a" 0, .countdown halfRnd, .start "c" 0, .countdown halfRnd]

/-- Sample history: `a` joins the room whose name is the empty string and disconnects. -/
def namelessTrace : List Event :=
  [.connect "a", .join "a" "" "ann" halfRnd, .disconnect "a"]

/-- Sample state: `a` has connected and joined room `r`. -/
def joinedWorld : World :=
  { server := (joinRoom Server.empty "a" "r" "ann" halfRnd).1, conns := [("a", "r")] }

/-- A sample player at (30, 300): alive, radius 20, speed 10, holding `up` and `left`. -/
def cornerMover : Player :=
  { samplePlayerAt 30 300 with keys := ⟨true, false, true, false⟩ }

/-- The sample room whose only player is `cornerMover`, under id `a`. -/
def moverRoom : Game := sampleRoom [("a", cornerMover)] "" false

/-! ## Geometry: proofs -/

section Geometry

variable {K : Type*} [LinearOrderedField K]

/-- Along one axis, no point of the slab `|p - r| ≤ h` is closer to `c` than the clamp. -/
theorem axis_lower (p c r h : K) (hp : |p - r| ≤ h) :
    (max (|c - r| - h) 0) ^ 2 ≤ (p - c) ^ 2 := by
  have h1 : |c - r| ≤ |c - p| + |p - r| := abs_sub_le c p r
  have h2 : |c - p| = |p - c| := abs_sub_comm c p
  have h3 : max (|c - r| - h) 0 ≤ |p - c| := by
    apply max_le
    · linarith
    · exact abs_nonneg _
  have h4 : (max (|c - r| - h) 0) ^ 2 ≤ |p - c| ^ 2 :=
    pow_le_pow_left₀ (le_max_right _ _) h3 2
  simpa [sq_abs] using h4

/-- Along one axis, the clamp of `c` to the slab realises the distance `max (|c - r| - h) 0`. -/
theorem axis_clamp (c r h : K) (hh : 0 ≤ h) :
    ∃ p : K, |p - r| ≤ h ∧ (p - c) ^ 2 = (max (|c - r| - h) 0) ^ 2 := by
  rcases le_or_lt (|c - r|) h with hin | hout
  · refine ⟨c, hin, ?_⟩
    have : max (|c - r| - h) 0 = 0 := max_eq_right (by linarith)
    simp [this]
  · have hm : max (|c - r| - h) 0 = |c - r| - h := max_eq_left (by linarith)
    rcases le_or_lt 0 (c - r) with hpos | hneg
    · refine ⟨r + h, ?_, ?_⟩
      · simp [abs_of_nonneg hh]
      · rw [hm, abs_of_nonneg hpos]; ring
    · refine ⟨r - h, ?_, ?_⟩
      · simp [abs_of_nonneg hh]
      · rw [hm, abs_of_neg hneg]; ring

/-- The closed disc and the closed rectangle share a point iff the nearest point of the
rectangle is within `rad` of the centre. -/
theorem share_point_iff (cx cy rx ry hw hh rad : K) (h1 : 0 ≤ hw) (h2 : 0 ≤ hh) :
    (∃ px py : K, |px - rx| ≤ hw ∧ |py - ry| ≤ hh ∧
        (px - cx) ^ 2 + (py - cy) ^ 2 ≤ rad ^ 2) ↔
      (max (|cx - rx| - hw) 0) ^ 2 + (max (|cy - ry| - hh) 0) ^ 2 ≤ rad ^ 2 := by
  constructor
  · rintro ⟨px, py, hx, hy, hd⟩
    have ax := axis_lower px cx rx hw hx
    have ay := axis_lower py cy ry hh hy
    linarith
  · intro hd
    obtain ⟨px, hpx, ex⟩ := axis_clamp cx rx hw h1
    obtain ⟨py, hpy, ey⟩ := axis_clamp cy ry hh h2
    exact ⟨px, py, hpx, hpy, by rw [ex, ey]; exact hd⟩

end Geometry

/-- The source's four early returns and final comparison compute exactly
`nearestDistSq ≤ radius²` when the radius and the sides are non-negative. -/
theorem collisionCheck_iff_nearest (c : Circle) (r : Rect) (hr : 0 ≤ c.radius) :
    collisionCheckCircleRect c r = true ↔ nearestDistSq c r ≤ c.radius ^ 2 := by
  unfold collisionCheckCircleRect nearestDistSq
  simp only []
  set dx := |c.x - r.x| with hdx
  set dy := |c.y - r.y| with hdy
  have hdx0 : 0 ≤ dx := abs_nonneg _
  have hdy0 : 0 ≤ dy := abs_nonneg _
  have sx : 0 ≤ (max (dx - r.width / 2) 0) ^ 2 := sq_nonneg _
  have sy : 0 ≤ (max (dy - r.height / 2) 0) ^ 2 := sq_nonneg _
  by_cases h1 : dx > r.width / 2 + c.radius
  · have hm : max (dx - r.width / 2) 0 = dx - r.width / 2 := max_eq_left (by linarith)
    simp only [h1, if_true]
    constructor
    · intro h; exact absurd h (by simp)
    · intro h
      rw [hm] at h sx
      nlinarith
  · simp only [h1, if_false]
    by_cases h2 : dy > r.height / 2 + c.radius
    · have hm : max (dy - r.height / 2) 0 = dy - r.height / 2 := max_eq_left (by linarith)
      simp only [h2, if_true]
      constructor
      · intro h; exact absurd h (by simp)
      · intro h
        rw [hm] at h sy
        nlinarith
    · simp only [h2, if_false]
      push_neg at h1 h2
      by_cases h3 : dx ≤ r.width / 2
      · have hm : max (dx - r.width / 2) 0 = 0 := max_eq_right (by linarith)
        simp only [h3, if_true, true_iff]
        rw [hm]
        rcases le_or_lt dy (r.height / 2) with h4 | h4
        · have hm2 : max (dy - r.height / 2) 0 = 0 := max_eq_right (by linarith)
          rw [hm2]; nlinarith
        · have hm2 : max (dy - r.height / 2) 0 = dy - r.height / 2 :=
            max_eq_left (by linarith)
          rw [hm2]; nlinarith
      · simp only [h3, if_false]
        push_neg at h3
        have hm : max (dx - r.width / 2) 0 = dx - r.width / 2 := max_eq_left (by linarith)
        by_cases h4 : dy ≤ r.height / 2
        · have hm2 : max (dy - r.height / 2) 0 = 0 := max_eq_right (by linarith)
          simp only [h4, if_true, true_iff]
          rw [hm, hm2]; nlinarith
        · simp only [h4, if_false]
          push_neg at h4
          have hm2 : max (dy - r.height / 2) 0 = dy - r.height / 2 :=
            max_eq_left (by linarith)
          rw [hm, hm2, decide_eq_true_iff]
          constructor <;> intro h <;> nlinarith

/-- Claim C1: for radius, width and height all non-negative, `collisionCheckCircleRect`
returns true exactly when the closed disc and the closed axis-aligned rectangle (given by
its centre) share a point, equivalently when the squared distance from the circle centre to
the nearest point of the rectangle is at most `radius²`.  The shared point is taken both
over the rational and over the real plane. -/
theorem collisionCheckCircleRect_iff_overlap (c : Circle) (r : Rect)
    (hr : 0 ≤ c.radius) (hw : 0 ≤ r.width) (hh : 0 ≤ r.height) :
    (collisionCheckCircleRect c r = true ↔ nearestDistSq c r ≤ c.radius ^ 2) ∧
    (collisionCheckCircleRect c r = true ↔
      ∃ px py : ℚ, |px - r.x| ≤ r.width / 2 ∧ |py - r.y| ≤ r.height / 2 ∧
        (px - c.x) ^ 2 + (py - c.y) ^ 2 ≤ c.radius ^ 2) ∧
    (collisionCheckCircleRect c r = true ↔
      ∃ px py : ℝ, |px - (r.x : ℝ)| ≤ (r.width : ℝ) / 2 ∧ |py - (r.y : ℝ)| ≤ (r.height : ℝ) / 2 ∧
        (px - (c.x : ℝ)) ^ 2 + (py - (c.y : ℝ)) ^ 2 ≤ (c.radius : ℝ) ^ 2) := by
  have key := collisionCheck_iff_nearest c r hr
  refine ⟨key, ?_, ?_⟩
  · rw [key, share_point_iff c.x c.y r.x r.y (r.width / 2) (r.height / 2) c.radius
      (by linarith) (by linarith)]
    rfl
  · rw [key, share_point_iff (c.x : ℝ) (c.y : ℝ) (r.x : ℝ) (r.y : ℝ) ((r.width : ℝ) / 2)
      ((r.height : ℝ) / 2) (c.radius : ℝ)
      (by have : (0 : ℝ) ≤ (r.width : ℝ) := by exact_mod_cast hw
          linarith)
      (by have : (0 : ℝ) ≤ (r.height : ℝ) := by exact_mod_cast hh
          linarith)]
    unfold nearestDistSq
    constructor
    · intro h
      have h2 : (((max (|c.x - r.x| - r.width / 2) 0) ^ 2 +
        (max (|c.y - r.y| - r.height / 2) 0) ^ 2 : ℚ) : ℝ) ≤ ((c.radius ^ 2 : ℚ) : ℝ) := by
        exact_mod_cast h
      push_cast at h2
      exact h2
    · intro h
      have h2 : (((max (|c.x - r.x| - r.width / 2) 0) ^ 2 +
        (max (|c.y - r.y| - r.height / 2) 0) ^ 2 : ℚ) : ℝ) ≤ ((c.radius ^ 2 : ℚ) : ℝ) := by
        push_cast
        exact h
      exact_mod_cast h2

/-- Witness for C1: the unit-radius circle at the origin against the 2×2 square centred at
(2, 0), which it touches at (1, 0). -/
theorem collisionCheckCircleRect_iff_overlap_witness :
    (0 : ℚ) ≤ 1 ∧ (0 : ℚ) ≤ 2 ∧
    (collisionCheckCircleRect ⟨0, 0, 1⟩ ⟨2, 0, 2, 2⟩ = true ↔
      nearestDistSq ⟨0, 0, 1⟩ ⟨2, 0, 2, 2⟩ ≤ (1 : ℚ) ^ 2) :=
  ⟨by norm_num, by norm_num,
    (collisionCheckCircleRect_iff_overlap ⟨0, 0, 1⟩ ⟨2, 0, 2, 2⟩
      (by norm_num) (by norm_num) (by norm_num)).1⟩

/-- Claim C2: reflecting both shapes across the x-axis (both centre `y` negated), or both
across the y-axis (both centre `x` negated), does not change the result of
`collisionCheckCircleRect`. -/
theorem collisionCheckCircleRect_reflect (c : Circle) (r : Rect) :
    collisionCheckCircleRect c.flipY r.flipY = collisionCheckCircleRect c r ∧
    collisionCheckCircleRect c.flipX r.flipX = collisionCheckCircleRect c r := by
  have e : ∀ a b : ℚ, |(-a) - (-b)| = |a - b| := by
    intro a b
    rw [show (-a) - (-b) = -(a - b) by ring, abs_neg]
  constructor
  · simp only [collisionCheckCircleRect, Circle.flipY, Rect.flipY, e]
  · simp only [collisionCheckCircleRect, Circle.flipX, Rect.flipX, e]

/-! ## Association lists: proofs -/

theorem lookup_map_snd {α β : Type} (f : α → β) (k : String) (l : List (String × α)) :
    lookup k (l.map (fun e => (e.1, f e.2))) = (lookup k l).map f := by
  induction l with
  | nil => rfl
  | cons e rest ih =>
    obtain ⟨k', v⟩ := e
    by_cases h : k' = k <;> simp [lookup, h, ih]

theorem lookup_assign_self {α : Type} (k : String) (v : α) (l : List (String × α)) :
    lookup k (assign k v l) = some v := by
  induction l with
  | nil => simp [assign, lookup]
  | cons e rest ih =>
    obtain ⟨k', v'⟩ := e
    by_cases h : k' = k <;> simp [assign, lookup, h, ih]

theorem lookup_assign_ne {α : Type} (k k2 : String) (v : α) (l : List (String × α))
    (hne : k2 ≠ k) : lookup k2 (assign k v l) = lookup k2 l := by
  induction l with
  | nil => simp [assign, lookup, Ne.symm hne]
  | cons e rest ih =>
    obtain ⟨k', v'⟩ := e
    by_cases h : k' = k
    · subst h
      simp [assign, lookup, Ne.symm hne]
    · by_cases h2 : k' = k2
      · subst h2
        simp [assign, lookup, h]
      · simp [assign, lookup, h, h2, ih]

theorem lookup_modify_self {α : Type} (k : String) (f : α → α) (l : List (String × α)) :
    lookup k (modify k f l) = (lookup k l).map f := by
  induction l with
  | nil => rfl
  | cons e rest ih =>
    obtain ⟨k', v⟩ := e
    by_cases h : k' = k <;> simp [modify, lookup, h, ih]

theorem lookup_modify_ne {α : Type} (k k2 : String) (f : α → α) (l : List (String × α))
    (hne : k2 ≠ k) : lookup k2 (modify k f l) = lookup k2 l := by
  induction l with
  | nil => rfl
  | cons e rest ih =>
    obtain ⟨k', v⟩ := e
    by_cases h : k' = k
    · subst h
      simp [modify, lookup, Ne.symm hne]
    · by_cases h2 : k' = k2
      · subst h2
        simp [modify, lookup, h]
      · simp [modify, lookup, h, h2, ih]

/-! ## Movement: proofs -/

theorem PlayerOk.speed_bounds {x0 y0 : ℚ} {p : Player} (hp : PlayerOk x0 y0 p) :
    0 ≤ p.speed ∧ p.speed ≤ 20 := by
  rcases hp.speed_eq with h | h <;> rw [h] <;> norm_num

theorem PlayerOk.with_speed {x0 y0 : ℚ} {p : Player} (hp : PlayerOk x0 y0 p) (s : ℚ)
    (hs : s = 10 ∨ s = 20) : PlayerOk x0 y0 { p with speed := s } :=
  ⟨hp.radius_eq, hs, hp.x_lo, hp.x_hi, hp.y_lo, hp.y_hi⟩

theorem PlayerOk.with_alive {x0 y0 : ℚ} {p : Player} (hp : PlayerOk x0 y0 p) (b : Bool) :
    PlayerOk x0 y0 { p with alive := b } :=
  ⟨hp.radius_eq, hp.speed_eq, hp.x_lo, hp.x_hi, hp.y_lo, hp.y_hi⟩

theorem PlayerOk.with_keys {x0 y0 : ℚ} {p : Player} (hp : PlayerOk x0 y0 p) (k : Keys) :
    PlayerOk x0 y0 { p with keys := k } :=
  ⟨hp.radius_eq, hp.speed_eq, hp.x_lo, hp.x_hi, hp.y_lo, hp.y_hi⟩

theorem moveUp_ok (x0 y0 : ℚ) (p : Player) (hp : PlayerOk x0 y0 p) :
    PlayerOk x0 y0 (moveUp p) := by
  have hs := hp.speed_bounds
  obtain ⟨hr, hs', hxl, hxh, hyl, hyh⟩ := hp
  unfold moveUp
  split_ifs with hc
  · refine ⟨hr, hs', hxl, hxh, ?_, ?_⟩
    · show min y0 20 ≤ p.position.y - p.speed
      have := hc.2
      rw [hr] at this
      exact le_trans (min_le_right _ _) (by linarith)
    · show p.position.y - p.speed ≤ max y0 595
      linarith
  · exact ⟨hr, hs', hxl, hxh, hyl, hyh⟩

theorem moveDown_ok (x0 y0 : ℚ) (g : Game) (p : Player) (hh : g.height = 600)
    (hp : PlayerOk x0 y0 p) : PlayerOk x0 y0 (moveDown g p) := by
  have hs := hp.speed_bounds
  obtain ⟨hr, hs', hxl, hxh, hyl, hyh⟩ := hp
  unfold moveDown
  split_ifs with hc
  · refine ⟨hr, hs', hxl, hxh, ?_, ?_⟩
    · show min y0 20 ≤ p.position.y + p.speed
      linarith
    · show p.position.y + p.speed ≤ max y0 595
      have := hc.2
      rw [hr, hh] at this
      exact le_trans (by linarith) (le_max_right _ _)
  · exact ⟨hr, hs', hxl, hxh, hyl, hyh⟩

theorem moveLeft_ok (x0 y0 : ℚ) (p : Player) (hp : PlayerOk x0 y0 p) :
    PlayerOk x0 y0 (moveLeft p) := by
  have hs := hp.speed_bounds
  obtain ⟨hr, hs', hxl, hxh, hyl, hyh⟩ := hp
  unfold moveLeft
  split_ifs with hc
  · refine ⟨hr, hs', ?_, ?_, hyl, hyh⟩
    · show min x0 5 ≤ p.position.x - p.speed
      have := hc.2
      rw [hr] at this
      exact le_trans (min_le_right _ _) (by linarith)
    · show p.position.x - p.speed ≤ max x0 995
      linarith
  · exact ⟨hr, hs', hxl, hxh, hyl, hyh⟩

theorem moveRight_ok (x0 y0 : ℚ) (g : Game) (p : Player) (hw : g.width = 1000)
    (hp : PlayerOk x0 y0 p) : PlayerOk x0 y0 (moveRight g p) := by
  have hs := hp.speed_bounds
  obtain ⟨hr, hs', hxl, hxh, hyl, hyh⟩ := hp
  unfold moveRight
  split_ifs with hc
  · refine ⟨hr, hs', ?_, ?_, hyl, hyh⟩
    · show min x0 5 ≤ p.position.x + p.speed
      linarith
    · show p.position.x + p.speed ≤ max x0 995
      have := hc.2
      rw [hr, hw] at this
      exact le_trans (by linarith) (le_max_right _ _)
  · exact ⟨hr, hs', hxl, hxh, hyl, hyh⟩

theorem movePlayer_ok (x0 y0 : ℚ) (g : Game) (p : Player) (hw : g.width = 1000)
    (hh : g.height = 600) (hp : PlayerOk x0 y0 p) : PlayerOk x0 y0 (movePlayer g p) := by
  unfold movePlayer
  split_ifs
  · exact moveRight_ok x0 y0 g _ hw (moveLeft_ok x0 y0 _ (moveDown_ok x0 y0 g _ hh
      (moveUp_ok x0 y0 p hp)))
  · exact hp


theorem tracked_map (x0 y0 : ℚ) (id : String) (f : Player → Player)
    (hf : ∀ p, PlayerOk x0 y0 p → PlayerOk x0 y0 (f p)) (players : List (String × Player))
    (h : Tracked x0 y0 id players) :
    Tracked x0 y0 id (players.map (fun e => (e.1, f e.2))) := by
  obtain ⟨p, hp, hok⟩ := h
  exact ⟨f p, by rw [lookup_map_snd, hp]; rfl, hf p hok⟩

theorem tracked_modify (x0 y0 : ℚ) (id k : String) (f : Player → Player)
    (hf : ∀ p, PlayerOk x0 y0 p → PlayerOk x0 y0 (f p)) (players : List (String × Player))
    (h : Tracked x0 y0 id players) : Tracked x0 y0 id (modify k f players) := by
  obtain ⟨p, hp, hok⟩ := h
  by_cases hk : id = k
  · subst hk
    exact ⟨f p, by rw [lookup_modify_self, hp]; rfl, hf p hok⟩
  · exact ⟨p, by rw [lookup_modify_ne k id f players hk, hp], hok⟩

theorem collidePlayers_cons_hit (item : Item) (key : String) (player : Player)
    (rest : List (String × Player)) (rnd : Rand) (h : hits item player = true) :
    collidePlayers item ((key, player) :: rest) rnd =
      ((collidePlayers (resetItem item rnd).1 rest (resetItem item rnd).2).1,
       (key, { player with alive := false }) ::
         (collidePlayers (resetItem item rnd).1 rest (resetItem item rnd).2).2.1,
       (collidePlayers (resetItem item rnd).1 rest (resetItem item rnd).2).2.2) := by
  simp only [hits, Bool.and_eq_true] at h
  simp [collidePlayers, h.1, h.2]

theorem collidePlayers_cons_miss (item : Item) (key : String) (player : Player)
    (rest : List (String × Player)) (rnd : Rand) (h : hits item player = false) :
    collidePlayers item ((key, player) :: rest) rnd =
      ((collidePlayers item rest rnd).1,
       (key, player) :: (collidePlayers item rest rnd).2.1,
       (collidePlayers item rest rnd).2.2) := by
  simp only [hits, Bool.and_eq_false_iff] at h
  rcases h with h | h
  · simp [collidePlayers, h]
  · by_cases ha : player.alive <;> simp [collidePlayers, h, ha]

theorem collidePlayers_lookup (k : String) (item : Item) (players : List (String × Player))
    (rnd : Rand) :
    lookup k (collidePlayers item players rnd).2.1 = lookup k players ∨
    lookup k (collidePlayers item players rnd).2.1 =
      (lookup k players).map (fun p => { p with alive := false }) := by
  induction players generalizing item rnd with
  | nil => left; rfl
  | cons e rest ih =>
    obtain ⟨key, player⟩ := e
    cases hh : hits item player
    · rw [collidePlayers_cons_miss item key player rest rnd hh]
      by_cases hk : key = k
      · left; simp [lookup, hk]
      · simp only [lookup, hk, if_false]; exact ih _ _
    · rw [collidePlayers_cons_hit item key player rest rnd hh]
      by_cases hk : key = k
      · right; simp [lookup, hk]
      · simp only [lookup, hk, if_false]; exact ih _ _

theorem collideItems_lookup (k : String) (items : List Item) (players : List (String × Player))
    (rnd : Rand) :
    lookup k (collideItems items players rnd).2.1 = lookup k players ∨
    lookup k (collideItems items players rnd).2.1 =
      (lookup k players).map (fun p => { p with alive := false }) := by
  induction items generalizing players rnd with
  | nil => left; rfl
  | cons item rest ih =>
    unfold collideItems
    simp only []
    rcases ih (collidePlayers item players rnd).2.1 (collidePlayers item players rnd).2.2
      with h | h <;>
    rcases collidePlayers_lookup k item players rnd with h1 | h1 <;>
    rw [h, h1]
    · left; rfl
    · right; rfl
    · right; rfl
    · right
      cases lookup k players <;> rfl

theorem tracked_collideItems (x0 y0 : ℚ) (id : String) (items : List Item)
    (players : List (String × Player)) (rnd : Rand) (h : Tracked x0 y0 id players) :
    Tracked x0 y0 id (collideItems items players rnd).2.1 := by
  obtain ⟨p, hp, hok⟩ := h
  rcases collideItems_lookup id items players rnd with h | h
  · exact ⟨p, by rw [h, hp], hok⟩
  · exact ⟨{ p with alive := false }, by rw [h, hp]; rfl, hok.with_alive false⟩

theorem tracks_checkHost (x0 y0 : ℚ) (id : String) (sockets : List (String × String))
    (g : Game) (h : Tracks x0 y0 id g) : Tracks x0 y0 id (checkHost sockets g) := by
  unfold checkHost
  simp only []
  split_ifs
  · exact h
  · exact h

theorem tracks_updatePlayers (x0 y0 : ℚ) (id : String) (g : Game) (h : Tracks x0 y0 id g) :
    Tracks x0 y0 id (updatePlayers g) := by
  obtain ⟨hw, hh, ht⟩ := h
  exact ⟨hw, hh, tracked_map x0 y0 id (movePlayer g)
    (fun p hp => movePlayer_ok x0 y0 g p hw hh hp) g.players ht⟩

theorem tracks_updateItems (x0 y0 : ℚ) (id : String) (g : Game) (rnd : Rand)
    (h : Tracks x0 y0 id g) : Tracks x0 y0 id (updateItems g rnd).1 := h

theorem tracks_collisionDetection (x0 y0 : ℚ) (id : String) (g : Game) (rnd : Rand)
    (h : Tracks x0 y0 id g) : Tracks x0 y0 id (collisionDetection g rnd).1 :=
  ⟨h.1, h.2.1, tracked_collideItems x0 y0 id g.items g.players rnd h.2.2⟩

theorem tracks_checkGameOver (x0 y0 : ℚ) (id : String) (g : Game) (h : Tracks x0 y0 id g) :
    Tracks x0 y0 id (checkGameOver g) := by
  unfold checkGameOver
  simp only []
  split_ifs
  · exact ⟨h.1, h.2.1, tracked_modify x0 y0 id _ _
      (fun p hp => hp.with_speed 20 (Or.inr rfl)) _ h.2.2⟩
  · exact h

theorem tracks_tickRoom (x0 y0 : ℚ) (id : String) (sockets : List (String × String))
    (g : Game) (rnd : Rand) (h : Tracks x0 y0 id g) :
    Tracks x0 y0 id (tickRoom sockets g rnd).1 := by
  have h1 := tracks_updatePlayers x0 y0 id _ (tracks_checkHost x0 y0 id sockets g h)
  unfold tickRoom
  simp only []
  split_ifs
  · exact tracks_checkGameOver x0 y0 id _ (tracks_collisionDetection x0 y0 id _ _
      (tracks_updateItems x0 y0 id _ rnd h1))
  · exact h1

theorem tracks_resetRound (x0 y0 : ℚ) (id : String) (g : Game) (now : ℤ)
    (h : Tracks x0 y0 id g) : Tracks x0 y0 id (resetRound g now) := by
  obtain ⟨hw, hh, ht⟩ := h
  have alive_ok : ∀ p, PlayerOk x0 y0 p → PlayerOk x0 y0 { p with alive := true } :=
    fun p hp => hp.with_alive true
  unfold resetRound
  simp only []
  split_ifs
  · exact ⟨hw, hh, tracked_map x0 y0 id _ alive_ok _ (tracked_modify x0 y0 id _ _
      (fun p hp => hp.with_speed DEFAULT_SPEED (Or.inl rfl)) _ ht)⟩
  · exact ⟨hw, hh, tracked_map x0 y0 id _ alive_ok _ ht⟩

theorem tracks_setKey (x0 y0 : ℚ) (id socketId direction : String) (pressed : Bool)
    (g : Game) (h : Tracks x0 y0 id g) :
    Tracks x0 y0 id ((setKey g socketId direction pressed).getD g) := by
  unfold setKey
  by_cases hd : direction = "up" ∨ direction = "down" ∨ direction = "right" ∨
      direction = "left"
  · rw [if_pos hd]
    cases hl : lookup socketId g.players with
    | none => exact h
    | some q =>
      refine ⟨h.1, h.2.1, tracked_modify x0 y0 id _ _ ?_ _ h.2.2⟩
      intro p hp
      by_cases h1 : direction = "up"
      · rw [if_pos h1]; exact hp.with_keys _
      · rw [if_neg h1]
        by_cases h2 : direction = "down"
        · rw [if_pos h2]; exact hp.with_keys _
        · rw [if_neg h2]
          by_cases h3 : direction = "right"
          · rw [if_pos h3]; exact hp.with_keys _
          · rw [if_neg h3]; exact hp.with_keys _
  · rw [if_neg hd]
    exact h

theorem tracks_apply (x0 y0 : ℚ) (id : String) (g : Game) (e : RoomEvent)
    (h : Tracks x0 y0 id g) : Tracks x0 y0 id (e.apply g) := by
  cases e with
  | keydown socketId direction => exact tracks_setKey x0 y0 id socketId direction true g h
  | keyup socketId direction => exact tracks_setKey x0 y0 id socketId direction false g h
  | tick sockets rnd => exact tracks_tickRoom x0 y0 id sockets g rnd h
  | start now =>
    show Tracks x0 y0 id (if g.players.length > 1 then resetRound g now else g)
    split_ifs
    · exact tracks_resetRound x0 y0 id g now h
    · exact h
  | countdown rnd => exact h
  | ramp => exact h

theorem tracks_runRoom (x0 y0 : ℚ) (id : String) (events : List RoomEvent) (g : Game)
    (h : Tracks x0 y0 id g) : Tracks x0 y0 id (runRoom g events) := by
  induction events generalizing g with
  | nil => exact h
  | cons e rest ih => exact ih _ (tracks_apply x0 y0 id g e h)

theorem tracks_addPlayer (g0 : Game) (id name : String) (rnd : Rand)
    (hw : g0.width = 1000) (hh : g0.height = 600) :
    Tracks (rnd 0 * 1000) (rnd 1 * 600) id (addPlayer g0 id name rnd).1 := by
  refine ⟨hw, hh, (newPlayer g0 name rnd).1, lookup_assign_self _ _ _, ?_⟩
  refine ⟨rfl, Or.inl rfl, ?_, ?_, ?_, ?_⟩
  · show min (rnd 0 * 1000) 5 ≤ rnd 0 * g0.width
    rw [hw]; exact min_le_left _ _
  · show rnd 0 * g0.width ≤ max (rnd 0 * 1000) 995
    rw [hw]; exact le_max_left _ _
  · show min (rnd 1 * 600) 20 ≤ rnd 1 * g0.height
    rw [hh]; exact min_le_left _ _
  · show rnd 1 * g0.height ≤ max (rnd 1 * 600) 595
    rw [hh]; exact le_max_left _ _

/-- Claim C3 (amended): a player created by join in a room of width 1000 and height 600,
whatever then happens to the room (key events of any connection, ticks, round starts,
countdown and ramp callbacks), stays inside the field, `0 ≤ x < 1000` and `0 ≤ y < 600`, and
never gets further out than its starting coordinate or one 20-unit step beyond the margin
box: `min x₀ 5 ≤ x ≤ max x₀ 995`, `min y₀ 20 ≤ y ≤ max y₀ 595`. -/
theorem joined_player_stays_in_field (g0 : Game) (id name : String) (rnd : Rand)
    (events : List RoomEvent) (hw : g0.width = 1000) (hh : g0.height = 600)
    (hrnd : rnd.Valid) :
    ∃ p, lookup id (runRoom (addPlayer g0 id name rnd).1 events).players = some p ∧
      (0 ≤ p.position.x ∧ p.position.x < 1000 ∧ 0 ≤ p.position.y ∧ p.position.y < 600) ∧
      (min (rnd 0 * 1000) 5 ≤ p.position.x ∧ p.position.x ≤ max (rnd 0 * 1000) 995 ∧
       min (rnd 1 * 600) 20 ≤ p.position.y ∧ p.position.y ≤ max (rnd 1 * 600) 595) := by
  obtain ⟨-, -, p, hp, hok⟩ := tracks_runRoom _ _ id events _
    (tracks_addPlayer g0 id name rnd hw hh)
  have h0 := hrnd 0
  have h1 := hrnd 1
  refine ⟨p, hp, ⟨?_, ?_, ?_, ?_⟩, hok.x_lo, hok.x_hi, hok.y_lo, hok.y_hi⟩
  · exact le_trans (le_min (by linarith) (by norm_num)) hok.x_lo
  · exact lt_of_le_of_lt hok.x_hi (max_lt (by linarith) (by norm_num))
  · exact le_trans (le_min (by linarith) (by norm_num)) hok.y_lo
  · exact lt_of_le_of_lt hok.y_hi (max_lt (by linarith) (by norm_num))


theorem marginRnd_valid : marginRnd.Valid := by
  intro n
  unfold marginRnd
  split_ifs <;> norm_num

/-- Witness for C3: the sample history from a fresh room. -/
theorem joined_player_stays_in_field_witness :
    (newGame "a").width = 1000 ∧ (newGame "a").height = 600 ∧ marginRnd.Valid ∧
    ∃ p, lookup "a" marginRun.players = some p ∧
      (0 ≤ p.position.x ∧ p.position.x < 1000 ∧ 0 ≤ p.position.y ∧ p.position.y < 600) ∧
      (min (marginRnd 0 * 1000) 5 ≤ p.position.x ∧ p.position.x ≤ max (marginRnd 0 * 1000) 995 ∧
       min (marginRnd 1 * 600) 20 ≤ p.position.y ∧
       p.position.y ≤ max (marginRnd 1 * 600) 595) :=
  ⟨rfl, rfl, marginRnd_valid,
    joined_player_stays_in_field (newGame "a") "a" "ann" marginRnd
      [.keydown "a" "left", .tick [("a", "r")] marginRnd] rfl rfl marginRnd_valid⟩

/-- Counterexample to C3 as stated: a player who joins at x = 30 (inside the margin box
`25 ≤ x ≤ 975`) and holds `left` for one tick is at x = 20, so `radius + 5 ≤ x` fails. -/
theorem margin_box_counterexample :
    ∃ p, lookup "a" marginRun.players = some p ∧ ¬ (p.radius + 5 ≤ p.position.x) := by
  have h : (lookup "a" marginRun.players).map (fun p => (p.position.x, p.radius)) =
      some (20, 20) := by
    simp [marginRun, runRoom, RoomEvent.apply, addPlayer, newGame, newPlayer, assign, setKey,
      lookup, modify, tickRoom, checkHost, updatePlayers, movePlayer, moveUp, moveDown,
      moveLeft, moveRight, marginRnd, WIDTH, HEIGHT, DEFAULT_SPEED]
    norm_num
  cases hl : lookup "a" marginRun.players with
  | none => rw [hl] at h; simp at h
  | some p =>
    rw [hl] at h
    simp only [Option.map_some', Option.some.injEq, Prod.mk.injEq] at h
    exact ⟨p, rfl, by rw [h.1, h.2]; norm_num⟩

/-! ## Win check: proofs -/

theorem countAlive_foldl (l : List (String × Player)) (c : ℕ) (w : String) :
    l.foldl (fun acc e => if e.2.alive then (acc.1 + 1, e.1) else acc) (c, w) =
      (c + (l.filter (fun e => e.2.alive)).length,
       (((l.filter (fun e => e.2.alive)).getLast?).map Prod.fst).getD w) := by
  induction l generalizing c w with
  | nil => simp
  | cons e rest ih =>
    by_cases h : e.2.alive
    · simp only [List.foldl_cons, h, if_true, List.filter_cons_of_pos, List.length_cons]
      rw [ih]
      refine Prod.ext (by simp; omega) ?_
      cases hr : rest.filter (fun e => e.2.alive) with
      | nil => simp
      | cons a t =>
        have hg := List.getLast?_eq_getLast (a :: t) (List.cons_ne_nil a t)
        simp [List.getLast?_cons_cons, hg]
    · simp only [List.foldl_cons, h, if_false, Bool.false_eq_true]
      rw [ih]
      simp [List.filter_cons, h]

theorem countAlive_eq (l : List (String × Player)) :
    countAlive l = ((l.filter (fun e => e.2.alive)).length,
      (((l.filter (fun e => e.2.alive)).getLast?).map Prod.fst).getD "") := by
  unfold countAlive
  rw [countAlive_foldl]
  simp

theorem modify_eq_map {α : Type} (k : String) (f : α → α) (l : List (String × α))
    (hd : DistinctKeys l) :
    modify k f l = l.map (fun e => if e.1 = k then (e.1, f e.2) else e) := by
  induction l with
  | nil => rfl
  | cons e rest ih =>
    obtain ⟨k', v⟩ := e
    have hd' : DistinctKeys rest := (List.nodup_cons.mp hd).2
    have hnot : k' ∉ rest.map Prod.fst := (List.nodup_cons.mp hd).1
    by_cases h : k' = k
    · subst h
      simp only [modify, if_true, List.map_cons]
      congr 1
      have hid : ∀ e ∈ rest, (if e.1 = k' then (e.1, f e.2) else e) = id e := fun e he =>
        if_neg (fun (h : e.1 = k') => hnot (h ▸ List.mem_map_of_mem Prod.fst he))
      rw [List.map_congr_left hid, List.map_id]
    · simp [modify, h, ih hd']


theorem checkGameOver_of_single (g : Game) (k : String) (p : Player)
    (h : alivePlayers g = [(k, p)]) :
    checkGameOver g = { g with
      winner := k
      gameOver := true
      players := modify k (fun q => { q with speed := 20 }) g.players } := by
  unfold alivePlayers at h
  have hc : countAlive g.players = (1, k) := by rw [countAlive_eq, h]; rfl
  unfold checkGameOver
  simp [hc]

theorem mem_lookup_of_distinct {α : Type} (k : String) (v : α) (l : List (String × α))
    (hd : DistinctKeys l) (hm : (k, v) ∈ l) : lookup k l = some v := by
  induction l with
  | nil => cases hm
  | cons e rest ih =>
    obtain ⟨k', v'⟩ := e
    rcases List.mem_cons.mp hm with heq | hin
    · cases heq
      simp [lookup]
    · have hnot : k' ∉ rest.map Prod.fst := (List.nodup_cons.mp hd).1
      have hne : k' ≠ k := fun h => hnot (h ▸ List.mem_map_of_mem Prod.fst hin)
      simp only [lookup, hne, if_false]
      exact ih (List.nodup_cons.mp hd).2 hin

/-- Claim C4: in a room whose players have distinct ids and where exactly one player, `k`,
is alive, `checkGameOver` sets `gameOver = true` and `winner = k`, sets that player's speed
to 20 (its other fields kept), leaves every other player as it was, and changes no other
field of the room. -/
theorem checkGameOver_single_survivor (g : Game) (k : String) (p : Player)
    (hd : DistinctKeys g.players) (h : alivePlayers g = [(k, p)]) :
    (checkGameOver g).gameOver = true ∧
    (checkGameOver g).winner = k ∧
    lookup k (checkGameOver g).players = some { p with speed := 20 } ∧
    (∀ k2, k2 ≠ k → lookup k2 (checkGameOver g).players = lookup k2 g.players) ∧
    (checkGameOver g).players =
      g.players.map (fun e => if e.1 = k then (e.1, { e.2 with speed := 20 }) else e) ∧
    checkGameOver g = { g with
      winner := k, gameOver := true, players := (checkGameOver g).players } := by
  have hmem : (k, p) ∈ g.players := by
    have : (k, p) ∈ alivePlayers g := by rw [h]; exact List.mem_singleton.mpr rfl
    exact (List.mem_filter.mp this).1
  have hl := mem_lookup_of_distinct k p g.players hd hmem
  rw [checkGameOver_of_single g k p h]
  refine ⟨rfl, rfl, ?_, ?_, ?_, rfl⟩
  · show lookup k (modify k _ g.players) = _
    rw [lookup_modify_self, hl]; rfl
  · intro k2 hne
    exact lookup_modify_ne k k2 _ g.players hne
  · exact modify_eq_map k _ g.players hd

/-- Claim C5: when the number of alive players is zero or at least two, `checkGameOver`
returns the room unchanged (`gameOver`, `winner`, every player's speed and all the rest), so
a simultaneous elimination of all players declares no winner. -/
theorem checkGameOver_no_single_survivor (g : Game)
    (h : (alivePlayers g).length = 0 ∨ 2 ≤ (alivePlayers g).length) :
    checkGameOver g = g := by
  unfold alivePlayers at h
  unfold checkGameOver
  have hc : (countAlive g.players).1 ≠ 1 := by
    rw [countAlive_eq]
    show (g.players.filter (fun e => e.2.alive)).length ≠ 1
    omega
  simp [hc]


/-- Witness for C4: `b` is the last player standing. -/
theorem checkGameOver_single_survivor_witness :
    DistinctKeys lastStanding.players ∧
    alivePlayers lastStanding = [("b", samplePlayer true 10)] ∧
    (checkGameOver lastStanding).gameOver = true ∧
    (checkGameOver lastStanding).winner = "b" ∧
    lookup "b" (checkGameOver lastStanding).players = some (samplePlayer true 20) :=
  have h := checkGameOver_single_survivor lastStanding "b" (samplePlayer true 10)
    (by simp [DistinctKeys, lastStanding, sampleRoom]) rfl
  ⟨by simp [DistinctKeys, lastStanding, sampleRoom], rfl, h.1, h.2.1, h.2.2.1⟩

/-- Witness for C5: both players out, no winner declared. -/
theorem checkGameOver_no_single_survivor_witness :
    ((alivePlayers allOut).length = 0 ∨ 2 ≤ (alivePlayers allOut).length) ∧
    checkGameOver allOut = allOut :=
  ⟨Or.inl rfl, checkGameOver_no_single_survivor allOut (Or.inl rfl)⟩

/-! ## Round start: proofs -/

theorem lookup_map_entry {α β : Type} (F : String × α → String × β)
    (k : String) (l : List (String × α)) (hF : ∀ e, (F e).1 = e.1) :
    lookup k (l.map F) = (lookup k l).map (fun v => (F (k, v)).2) := by
  induction l with
  | nil => rfl
  | cons e rest ih =>
    obtain ⟨k', v⟩ := e
    have h1 := hF (k', v)
    cases hFe : F (k', v) with
    | mk a b =>
      rw [hFe] at h1
      simp only at h1
      subst h1
      by_cases h : a = k
      · subst h
        simp [lookup, hFe]
      · simp [lookup, hFe, h, ih]

theorem startGame_of_count (s : Server) (room : String) (now : ℤ) (g : Game)
    (hreg : lookup room s.games = some g) (hcount : 2 ≤ g.players.length) :
    startGame s room now = some { s with
      games := assign room (resetRound g now) s.games
      timeouts := s.timeouts ++ [⟨room, (resetRound g now).countDown * 1000⟩] } := by
  unfold startGame getRoomCount
  rw [hreg]
  have : g.players.length > 1 := hcount
  simp [this]

theorem resetRound_fields (g : Game) (now : ℤ) :
    (resetRound g now).started = true ∧ (resetRound g now).gameOver = false ∧
    (resetRound g now).items = [] ∧ (resetRound g now).host = g.host ∧
    (resetRound g now).countDown = g.countDown ∧ (resetRound g now).width = g.width ∧
    (resetRound g now).height = g.height ∧ (resetRound g now).startTimestamp = now := by
  unfold resetRound
  simp only []
  split_ifs <;> exact ⟨rfl, rfl, rfl, rfl, rfl, rfl, rfl, rfl⟩

theorem modify_map_of_frame {α β : Type} (k : String) (f : α → α) (proj : String × α → β)
    (hf : ∀ k2 v, proj (k2, f v) = proj (k2, v)) (l : List (String × α)) :
    (modify k f l).map proj = l.map proj := by
  induction l with
  | nil => rfl
  | cons e rest ih =>
    obtain ⟨k', v⟩ := e
    by_cases h : k' = k <;> simp [modify, h, hf, ih]

theorem resetRound_players_alive (g : Game) (now : ℤ) :
    ∀ e ∈ (resetRound g now).players, e.2.alive = true := by
  unfold resetRound
  simp only []
  split_ifs <;>
  · intro e he
    obtain ⟨e0, -, rfl⟩ := List.mem_map.mp he
    rfl

theorem resetRound_players_frame (g : Game) (now : ℤ) :
    (resetRound g now).players.map
        (fun e => (e.1, e.2.name, e.2.position, e.2.keys, e.2.radius, e.2.color)) =
      g.players.map (fun e => (e.1, e.2.name, e.2.position, e.2.keys, e.2.radius, e.2.color)) := by
  unfold resetRound
  simp only []
  split_ifs
  · simp only [List.map_map]
    rw [← modify_map_of_frame g.winner (fun p => { p with speed := DEFAULT_SPEED })
      (fun e => (e.1, e.2.name, e.2.position, e.2.keys, e.2.radius, e.2.color))
      (fun _ _ => rfl) g.players]
    rfl
  · simp only [List.map_map]
    rfl

/-- Claim C6: for a registered room with at least two players, `startGame` returns, and
immediately afterwards (the countdown callback queued, not yet run) the room has
`started = true`, `gameOver = false`, no items and every player alive, while the players'
ids and order, names, positions, keys, radii and colours and the host are unchanged. -/
theorem startGame_resets_round (s : Server) (room : String) (now : ℤ) (g : Game)
    (hreg : lookup room s.games = some g) (hcount : 2 ≤ g.players.length) :
    ∃ s2 g2, startGame s room now = some s2 ∧ lookup room s2.games = some g2 ∧
      g2.started = true ∧ g2.gameOver = false ∧ g2.items = [] ∧
      (∀ e ∈ g2.players, e.2.alive = true) ∧
      g2.players.map (fun e => (e.1, e.2.name, e.2.position, e.2.keys, e.2.radius, e.2.color)) =
        g.players.map (fun e => (e.1, e.2.name, e.2.position, e.2.keys, e.2.radius, e.2.color)) ∧
      g2.host = g.host ∧
      s2.timeouts = s.timeouts ++ [⟨room, g.countDown * 1000⟩] := by
  have hf := resetRound_fields g now
  refine ⟨_, resetRound g now, startGame_of_count s room now g hreg hcount,
    lookup_assign_self _ _ _, hf.1, hf.2.1, hf.2.2.1, resetRound_players_alive g now,
    resetRound_players_frame g now, hf.2.2.2.1, ?_⟩
  show s.timeouts ++ [⟨room, (resetRound g now).countDown * 1000⟩] = _
  rw [hf.2.2.2.2.1]

/-- Claim C7 (amended): restarting a room of at least two players whose winner field is
non-empty.  If the recorded winner is still a player of the room, the winner field is
cleared, that player's speed becomes 10 and every other player's speed is unchanged; if the
recorded winner has left, the winner field keeps its value and no speed changes. -/
theorem startGame_winner_reset (s : Server) (room : String) (now : ℤ) (g : Game)
    (hreg : lookup room s.games = some g) (hcount : 2 ≤ g.players.length)
    (hw : g.winner ≠ "") :
    ∃ s2 g2, startGame s room now = some s2 ∧ lookup room s2.games = some g2 ∧
      ((lookup g.winner g.players).isSome = true →
        g2.winner = "" ∧
        (lookup g.winner g2.players).map (fun p => p.speed) = some 10 ∧
        ∀ k, k ≠ g.winner →
          (lookup k g2.players).map (fun p => p.speed) =
            (lookup k g.players).map (fun p => p.speed)) ∧
      (lookup g.winner g.players = none →
        g2.winner = g.winner ∧
        ∀ k, (lookup k g2.players).map (fun p => p.speed) =
          (lookup k g.players).map (fun p => p.speed)) := by
  refine ⟨_, resetRound g now, startGame_of_count s room now g hreg hcount,
    lookup_assign_self _ _ _, ?_, ?_⟩
  · intro hsome
    have hc : g.winner ≠ "" ∧ (lookup g.winner g.players).isSome = true := ⟨hw, hsome⟩
    have hpl : (resetRound g now).players =
        (modify g.winner (fun p => { p with speed := DEFAULT_SPEED }) g.players).map
          (fun e => (e.1, (fun p : Player => { p with alive := true }) e.2)) := by
      unfold resetRound
      simp only [hc, if_true, and_self, ne_eq, not_false_eq_true]
    refine ⟨?_, ?_, ?_⟩
    · unfold resetRound
      simp only [hc, if_true, and_self, ne_eq, not_false_eq_true]
    · rw [hpl, lookup_map_entry, lookup_modify_self]
      · obtain ⟨p, hp⟩ := Option.isSome_iff_exists.mp hsome
        rw [hp]
        rfl
      · exact fun _ => rfl
    · intro k hk
      rw [hpl, lookup_map_entry, lookup_modify_ne _ _ _ _ hk]
      · cases lookup k g.players <;> rfl
      · exact fun _ => rfl
  · intro hnone
    have hc : ¬ (g.winner ≠ "" ∧ (lookup g.winner g.players).isSome = true) := by
      rw [hnone]; simp
    have hpl : (resetRound g now).players =
        g.players.map (fun e => (e.1, (fun p : Player => { p with alive := true }) e.2)) := by
      unfold resetRound
      simp only [hc, if_false]
    refine ⟨?_, ?_⟩
    · unfold resetRound
      simp only [hc, if_false]
    · intro k
      rw [hpl, lookup_map_entry]
      · cases lookup k g.players <;> rfl
      · exact fun _ => rfl

/-- Claim C8: for a registered room with 0 or 1 players `startGame` is a no-op: it returns
the server state unchanged (every room, `started` included, the connection map and the
pending timers). -/
theorem startGame_small_room_noop (s : Server) (room : String) (now : ℤ) (g : Game)
    (hreg : lookup room s.games = some g) (hcount : g.players.length ≤ 1) :
    startGame s room now = some s := by
  unfold startGame getRoomCount
  rw [hreg]
  have : ¬ g.players.length > 1 := by omega
  simp [this]


/-- Witness for C6: restarting the sample room that `b` won. -/
theorem startGame_resets_round_witness :
    lookup "r" (serverWith wonRoom).games = some wonRoom ∧ 2 ≤ wonRoom.players.length ∧
    ∃ s2 g2, startGame (serverWith wonRoom) "r" 0 = some s2 ∧
      lookup "r" s2.games = some g2 ∧ g2.started = true ∧ g2.gameOver = false ∧
      g2.items = [] ∧ ∀ e ∈ g2.players, e.2.alive = true := by
  refine ⟨rfl, by decide, ?_⟩
  obtain ⟨s2, g2, h1, h2, h3, h4, h5, h6, -⟩ :=
    startGame_resets_round (serverWith wonRoom) "r" 0 wonRoom rfl (by decide)
  exact ⟨s2, g2, h1, h2, h3, h4, h5, h6⟩

/-- Witness for C7: restarting the sample room that `b` won, `b` still present. -/
theorem startGame_winner_reset_witness :
    lookup "r" (serverWith wonRoom).games = some wonRoom ∧ 2 ≤ wonRoom.players.length ∧
    wonRoom.winner ≠ "" ∧ (lookup wonRoom.winner wonRoom.players).isSome = true ∧
    ∃ s2 g2, startGame (serverWith wonRoom) "r" 0 = some s2 ∧
      lookup "r" s2.games = some g2 ∧ g2.winner = "" ∧
      (lookup wonRoom.winner g2.players).map (fun p => p.speed) = some 10 := by
  refine ⟨rfl, by decide, by decide, rfl, ?_⟩
  obtain ⟨s2, g2, h1, h2, h3, -⟩ :=
    startGame_winner_reset (serverWith wonRoom) "r" 0 wonRoom rfl (by decide) (by decide)
  exact ⟨s2, g2, h1, h2, (h3 rfl).1, (h3 rfl).2.1⟩

/-- Counterexample to C7 as stated: the room holds two players and records the winner `a`,
who has left; after `startGame` the winner field is still `a`, not empty. -/
theorem stale_winner_counterexample :
    2 ≤ staleWinnerRoom.players.length ∧ staleWinnerRoom.winner ≠ "" ∧
    ((startGame (serverWith staleWinnerRoom) "r" 0).bind (fun s => lookup "r" s.games)).map
      (fun g => g.winner) = some "a" :=
  ⟨by decide, by decide, rfl⟩

/-- Witness for C8: `start` in a room with a single player. -/
theorem startGame_small_room_noop_witness :
    lookup "r" (serverWith loneRoom).games = some loneRoom ∧ loneRoom.players.length ≤ 1 ∧
    startGame (serverWith loneRoom) "r" 0 = some (serverWith loneRoom) :=
  ⟨rfl, by decide, startGame_small_room_noop (serverWith loneRoom) "r" 0 loneRoom rfl
    (by decide)⟩

/-! ## Number arithmetic: proofs -/

theorem roundHalfEven_bounds (q : ℚ) : ⌊q⌋ ≤ roundHalfEven q ∧ roundHalfEven q ≤ ⌊q⌋ + 1 := by
  unfold roundHalfEven
  split_ifs <;> omega

theorem roundHalfEven_nearest (q : ℚ) (n : ℤ) :
    |(roundHalfEven q : ℚ) - q| ≤ |(n : ℚ) - q| := by
  have hf1 : (⌊q⌋ : ℚ) ≤ q := Int.floor_le q
  have hf2 : q < ⌊q⌋ + 1 := Int.lt_floor_add_one q
  have hn : (n : ℚ) ≤ ⌊q⌋ ∨ (⌊q⌋ : ℚ) + 1 ≤ n := by
    rcases le_or_lt n ⌊q⌋ with h | h
    · exact Or.inl (by exact_mod_cast h)
    · exact Or.inr (by exact_mod_cast h)
  unfold roundHalfEven
  split_ifs with h1 h2 h3
  · rcases hn with hn | hn <;> rcases abs_cases ((n : ℚ) - q) with ⟨e, s⟩ | ⟨e, s⟩ <;>
      rw [e, abs_le] <;> constructor <;> linarith
  · rcases hn with hn | hn <;> rcases abs_cases ((n : ℚ) - q) with ⟨e, s⟩ | ⟨e, s⟩ <;>
      rw [e, abs_le] <;> push_cast <;> constructor <;> linarith
  · rcases hn with hn | hn <;> rcases abs_cases ((n : ℚ) - q) with ⟨e, s⟩ | ⟨e, s⟩ <;>
      rw [e, abs_le] <;> constructor <;> linarith
  · rcases hn with hn | hn <;> rcases abs_cases ((n : ℚ) - q) with ⟨e, s⟩ | ⟨e, s⟩ <;>
      rw [e, abs_le] <;> push_cast <;> constructor <;> linarith

theorem binade_ge (x : ℚ) : -1022 ≤ binade x := le_max_right _ _

theorem abs_lt_zpow_binade (x : ℚ) : |x| < 2 ^ (binade x + 1) := by
  have h := Int.lt_zpow_succ_log_self (R := ℚ) (b := 2) one_lt_two |x|
  have h2 : ((2 : ℕ) : ℚ) ^ (Int.log 2 |x| + 1) ≤ (2 : ℚ) ^ (binade x + 1) := by
    rw [Nat.cast_ofNat]
    exact zpow_le_zpow_right₀ (by norm_num) (by unfold binade; have := le_max_left (Int.log 2 |x|) (-1022); linarith)
  exact lt_of_lt_of_le h h2

theorem zpow_binade_le (x : ℚ) (hx : x ≠ 0) (h : -1022 < binade x) : 2 ^ binade x ≤ |x| := by
  have he : binade x = Int.log 2 |x| := by
    unfold binade at h ⊢
    rcases max_cases (Int.log 2 |x|) (-1022) with ⟨e, -⟩ | ⟨e, -⟩
    · exact e
    · rw [e] at h
      exact absurd h (lt_irrefl _)
  rw [he]
  have := Int.zpow_log_le_self (R := ℚ) (b := 2) one_lt_two (abs_pos.mpr hx)
  rwa [Nat.cast_ofNat] at this


theorem roundDouble_zero : roundDouble 0 = 0 := by
  simp [roundDouble, roundHalfEven]

theorem roundDouble_grid (x : ℚ) (n : ℤ) :
    |roundDouble x - x| ≤ |(n : ℚ) * 2 ^ (binade x - 52) - x| := by
  have hu : (0 : ℚ) < 2 ^ (binade x - 52) := by positivity
  have h := roundHalfEven_nearest (x / 2 ^ (binade x - 52)) n
  have e1 : roundDouble x - x =
      ((roundHalfEven (x / 2 ^ (binade x - 52)) : ℚ) - x / 2 ^ (binade x - 52)) *
        2 ^ (binade x - 52) := by
    unfold roundDouble
    field_simp
  have e2 : (n : ℚ) * 2 ^ (binade x - 52) - x =
      ((n : ℚ) - x / 2 ^ (binade x - 52)) * 2 ^ (binade x - 52) := by
    field_simp
  rw [e1, e2, abs_mul, abs_mul, abs_of_pos hu]
  exact mul_le_mul_of_nonneg_right h hu.le

/-- No double is nearer to `x` than `roundDouble x`. -/
theorem roundDouble_nearest (x d : ℚ) (hd : IsDouble d) :
    |roundDouble x - x| ≤ |d - x| := by
  by_cases hx : x = 0
  · subst hx
    rw [roundDouble_zero]
    simp
  obtain ⟨m, k, hm, hk, rfl⟩ := hd
  by_cases hke : binade x - 52 ≤ k
  · have h := roundDouble_grid x (m * 2 ^ (k - (binade x - 52)).toNat)
    have e : ((m * 2 ^ (k - (binade x - 52)).toNat : ℤ) : ℚ) * 2 ^ (binade x - 52) =
        (m : ℚ) * 2 ^ k := by
      push_cast
      rw [mul_assoc, ← zpow_natCast, ← zpow_add₀ (by norm_num : (2 : ℚ) ≠ 0)]
      congr 2
      rw [Int.toNat_of_nonneg (by linarith)]
      ring
    rwa [e] at h
  · push_neg at hke
    have he : -1022 < binade x := by linarith
    have hlow := zpow_binade_le x hx he
    have hmq : |(m : ℚ)| < 2 ^ 53 := by
      have : ((|m| : ℤ) : ℚ) < ((2 ^ 53 : ℤ) : ℚ) := by exact_mod_cast hm
      simpa using this
    have hk0 : (0 : ℚ) < 2 ^ k := by positivity
    have hd : |(m : ℚ) * 2 ^ k| < 2 ^ binade x := by
      rw [abs_mul, abs_of_pos hk0]
      calc |(m : ℚ)| * 2 ^ k < 2 ^ 53 * 2 ^ k := mul_lt_mul_of_pos_right hmq hk0
        _ = 2 ^ (53 + k) := by
          rw [zpow_add₀ (by norm_num : (2 : ℚ) ≠ 0)]
          norm_num
        _ ≤ 2 ^ binade x := zpow_le_zpow_right₀ (by norm_num) (by linarith)
    have hgrid : ((2 ^ 52 : ℤ) : ℚ) * 2 ^ (binade x - 52) = 2 ^ binade x := by
      have h2 : (2 : ℚ) ^ binade x = 2 ^ (52 : ℤ) * 2 ^ (binade x - 52) := by
        rw [← zpow_add₀ (by norm_num : (2 : ℚ) ≠ 0)]
        congr 1
        ring
      rw [h2]
      norm_num
    have hdl := abs_lt.mp hd
    rcases lt_or_gt_of_ne hx with hneg | hpos
    · have h := roundDouble_grid x (-(2 ^ 52))
      have e : ((-(2 ^ 52) : ℤ) : ℚ) * 2 ^ (binade x - 52) = -(2 ^ binade x) := by
        rw [Int.cast_neg, neg_mul, hgrid]
      rw [e] at h
      rw [abs_of_neg hneg] at hlow
      rw [abs_of_nonneg (by linarith : (0 : ℚ) ≤ -(2 ^ binade x) - x)] at h
      rw [abs_of_nonneg (by linarith : (0 : ℚ) ≤ (m : ℚ) * 2 ^ k - x)]
      linarith
    · have h := roundDouble_grid x (2 ^ 52)
      rw [hgrid] at h
      rw [abs_of_pos hpos] at hlow
      rw [abs_of_nonpos (by linarith : (2 : ℚ) ^ binade x - x ≤ 0)] at h
      rw [abs_of_nonpos (by linarith : (m : ℚ) * 2 ^ k - x ≤ 0)]
      linarith

theorem roundDouble_le (x d : ℚ) (hd : IsDouble d) (h : x ≤ d) : roundDouble x ≤ d := by
  by_contra hc
  push_neg at hc
  have hn := roundDouble_nearest x d hd
  rw [abs_of_nonneg (by linarith), abs_of_nonneg (by linarith)] at hn
  linarith

theorem le_roundDouble (x d : ℚ) (hd : IsDouble d) (h : d ≤ x) : d ≤ roundDouble x := by
  by_contra hc
  push_neg at hc
  have hn := roundDouble_nearest x d hd
  rw [abs_of_nonpos (by linarith), abs_of_nonpos (by linarith)] at hn
  linarith

/-- Rounding leaves a double as it is. -/
theorem roundDouble_eq_self (d : ℚ) (hd : IsDouble d) : roundDouble d = d :=
  le_antisymm (roundDouble_le d d hd (le_refl d)) (le_roundDouble d d hd (le_refl d))

theorem roundDouble_lt (x d b : ℚ) (hd : IsDouble d) (h : |d - x| < b - x) :
    roundDouble x < b := by
  by_contra hc
  push_neg at hc
  have hn := roundDouble_nearest x d hd
  have := le_abs_self (roundDouble x - x)
  linarith

theorem lt_roundDouble (x d b : ℚ) (hd : IsDouble d) (h : |d - x| < x - b) :
    b < roundDouble x := by
  by_contra hc
  push_neg at hc
  have hn := roundDouble_nearest x d hd
  have := neg_le_abs (roundDouble x - x)
  linarith


theorem isDouble_int (n : ℤ) (h : |n| < 2 ^ 53) : IsDouble (n : ℚ) :=
  ⟨n, 0, h, by norm_num, by simp⟩

/-- The rounded value is a double. -/
theorem isDouble_roundDouble (x : ℚ) : IsDouble (roundDouble x) := by
  have hu : (0 : ℚ) < 2 ^ (binade x - 52) := by positivity
  have hx := abs_lt.mp (abs_lt_zpow_binade x)
  have h2 : (2 : ℚ) ^ (binade x + 1) = 2 ^ (53 : ℤ) * 2 ^ (binade x - 52) := by
    rw [← zpow_add₀ (by norm_num : (2 : ℚ) ≠ 0)]
    congr 1
    ring
  have hq1 : ((-(2 ^ 53) : ℤ) : ℚ) ≤ x / 2 ^ (binade x - 52) := by
    rw [le_div_iff₀ hu]
    have : ((-(2 ^ 53) : ℤ) : ℚ) * 2 ^ (binade x - 52) = -(2 ^ (binade x + 1)) := by
      rw [h2]
      norm_num
    linarith
  have hq2 : x / 2 ^ (binade x - 52) < ((2 ^ 53 : ℤ) : ℚ) := by
    rw [div_lt_iff₀ hu]
    have : ((2 ^ 53 : ℤ) : ℚ) * 2 ^ (binade x - 52) = 2 ^ (binade x + 1) := by
      rw [h2]
      norm_num
    linarith
  have hf1 := Int.le_floor.mpr hq1
  have hf2 := Int.floor_lt.mpr hq2
  have hb := roundHalfEven_bounds (x / 2 ^ (binade x - 52))
  have hbin := binade_ge x
  by_cases hn : |roundHalfEven (x / 2 ^ (binade x - 52))| < 2 ^ 53
  · exact ⟨_, binade x - 52, hn, by linarith, rfl⟩
  · have hcase : roundHalfEven (x / 2 ^ (binade x - 52)) = 2 ^ 53 ∨
        roundHalfEven (x / 2 ^ (binade x - 52)) = -(2 ^ 53) := by
      rcases abs_cases (roundHalfEven (x / 2 ^ (binade x - 52))) with ⟨e, -⟩ | ⟨e, -⟩ <;>
        rw [e] at hn <;> [left; right] <;> omega
    rcases hcase with e | e
    · refine ⟨1, binade x + 1, by norm_num, by linarith, ?_⟩
      unfold roundDouble
      rw [e, h2]
      norm_num
    · refine ⟨-1, binade x + 1, by norm_num, by linarith, ?_⟩
      unfold roundDouble
      rw [e, h2]
      norm_num

/-- The doubles are exactly the values that rounding leaves as they are. -/
theorem isDouble_iff (d : ℚ) : IsDouble d ↔ roundDouble d = d :=
  ⟨roundDouble_eq_self d, fun h => h ▸ isDouble_roundDouble d⟩

theorem roundDouble_idem (x : ℚ) : roundDouble (roundDouble x) = roundDouble x :=
  roundDouble_eq_self _ (isDouble_roundDouble x)

/-- Doubles below 1 are at most `1 - 2^-53`. -/
theorem isDouble_lt_one (d : ℚ) (hd : IsDouble d) (h : d < 1) : d ≤ 1 - 1 / 2 ^ 53 := by
  obtain ⟨m, k, hm, hk, rfl⟩ := hd
  have hmq : |(m : ℚ)| < 2 ^ 53 := by
    have : ((|m| : ℤ) : ℚ) < ((2 ^ 53 : ℤ) : ℚ) := by exact_mod_cast hm
    simpa using this
  have hk0 : (0 : ℚ) < 2 ^ k := by positivity
  by_cases hk53 : -53 ≤ k
  · have e : (m : ℚ) * 2 ^ k = ((m * 2 ^ (k + 53).toNat : ℤ) : ℚ) / 2 ^ 53 := by
      rw [eq_div_iff (by positivity)]
      push_cast
      rw [mul_assoc, ← zpow_natCast, ← zpow_natCast, ← zpow_add₀ (by norm_num : (2 : ℚ) ≠ 0),
        Int.toNat_of_nonneg (by linarith)]
      norm_num
    rw [e] at h ⊢
    rw [div_lt_one (by positivity)] at h
    have hi : m * 2 ^ (k + 53).toNat < 2 ^ 53 := by exact_mod_cast h
    have hi2 : ((m * 2 ^ (k + 53).toNat : ℤ) : ℚ) ≤ ((2 ^ 53 - 1 : ℤ) : ℚ) := by
      exact_mod_cast Int.le_sub_one_of_lt hi
    rw [div_le_iff₀ (by positivity)]
    calc ((m * 2 ^ (k + 53).toNat : ℤ) : ℚ) ≤ ((2 ^ 53 - 1 : ℤ) : ℚ) := hi2
      _ = (1 - 1 / 2 ^ 53) * 2 ^ 53 := by norm_num
  · push_neg at hk53
    have h1 : (m : ℚ) * 2 ^ k ≤ |(m : ℚ)| * 2 ^ k :=
      mul_le_mul_of_nonneg_right (le_abs_self _) hk0.le
    have h2 : |(m : ℚ)| * 2 ^ k ≤ 2 ^ 53 * 2 ^ k :=
      mul_le_mul_of_nonneg_right hmq.le hk0.le
    have h3 : (2 : ℚ) ^ k ≤ 2 ^ (-54 : ℤ) := zpow_le_zpow_right₀ (by norm_num) (by linarith)
    have h4 : (2 : ℚ) ^ 53 * 2 ^ (-54 : ℤ) = 1 / 2 := by norm_num
    have h5 : (2 : ℚ) ^ 53 * 2 ^ k ≤ 2 ^ 53 * 2 ^ (-54 : ℤ) :=
      mul_le_mul_of_nonneg_left h3 (by positivity)
    have h6 : (1 : ℚ) / 2 ≤ 1 - 1 / 2 ^ 53 := by norm_num
    exact le_trans h1 (le_trans h2 (le_trans h5 (h4 ▸ h6)))

/-- Positive doubles are at least `2^-1074`. -/
theorem isDouble_pos (d : ℚ) (hd : IsDouble d) (h : 0 < d) : 2 ^ (-1074 : ℤ) ≤ d := by
  obtain ⟨m, k, hm, hk, rfl⟩ := hd
  have hk0 : (0 : ℚ) < 2 ^ k := by positivity
  have hm0 : (0 : ℚ) < m := by
    by_contra hc
    push_neg at hc
    have := mul_nonpos_of_nonpos_of_nonneg hc hk0.le
    linarith
  have hm1 : (1 : ℚ) ≤ m := by
    have : (0 : ℤ) < m := by exact_mod_cast hm0
    exact_mod_cast this
  have h3 : (2 : ℚ) ^ (-1074 : ℤ) ≤ 2 ^ k := zpow_le_zpow_right₀ (by norm_num) hk
  calc (2 : ℚ) ^ (-1074 : ℤ) ≤ 2 ^ k := h3
    _ = 1 * 2 ^ k := (one_mul _).symm
    _ ≤ m * 2 ^ k := mul_le_mul_of_nonneg_right hm1 hk0.le


theorem binade_eq_of_pos (x : ℚ) (e : ℤ) (he : -1022 ≤ e) (h1 : 2 ^ e ≤ x)
    (h2 : x < 2 ^ (e + 1)) : binade x = e := by
  have hx : 0 < x := lt_of_lt_of_le (by positivity) h1
  have hl : Int.log 2 x = e := by
    apply le_antisymm
    · have := (Int.lt_zpow_iff_log_lt (R := ℚ) (b := 2) one_lt_two hx).mp
        (by rw [Nat.cast_ofNat]; exact h2)
      linarith
    · exact (Int.zpow_le_iff_le_log (R := ℚ) (b := 2) one_lt_two hx).mp
        (by rw [Nat.cast_ofNat]; exact h1)
  unfold binade
  rw [abs_of_pos hx, hl]
  exact max_eq_left he

theorem roundHalfEven_eq_of_near (q : ℚ) (n : ℤ) (h1 : (n : ℚ) - 1 / 2 < q)
    (h2 : q < n + 1 / 2) : roundHalfEven q = n := by
  have hn := roundHalfEven_nearest q n
  have hlt : |(n : ℚ) - q| < 1 / 2 := abs_lt.mpr ⟨by linarith, by linarith⟩
  have h3 := abs_lt.mp (lt_of_le_of_lt hn hlt)
  have h4 := abs_lt.mp hlt
  have h5 : ((roundHalfEven q : ℤ) : ℚ) < ((n + 1 : ℤ) : ℚ) := by
    push_cast
    linarith
  have h6 : ((n - 1 : ℤ) : ℚ) < ((roundHalfEven q : ℤ) : ℚ) := by
    push_cast
    linarith
  have h7 : roundHalfEven q < n + 1 := by exact_mod_cast h5
  have h8 : n - 1 < roundHalfEven q := by exact_mod_cast h6
  omega

theorem roundHalfEven_tie_odd (q : ℚ) (n : ℤ) (hq : q = n + 1 / 2) (hn : n % 2 = 1) :
    roundHalfEven q = n + 1 := by
  have hf : ⌊q⌋ = n := Int.floor_eq_iff.mpr ⟨by linarith, by linarith⟩
  unfold roundHalfEven
  rw [hf, hq]
  have e : (n : ℚ) + 1 / 2 - n = 1 / 2 := by ring
  rw [e]
  simp [hn]

theorem roundDouble_of_near (x : ℚ) (e n : ℤ) (he : -1022 ≤ e) (h1 : 2 ^ e ≤ x)
    (h2 : x < 2 ^ (e + 1)) (hn1 : ((n : ℚ) - 1 / 2) * 2 ^ (e - 52) < x)
    (hn2 : x < ((n : ℚ) + 1 / 2) * 2 ^ (e - 52)) :
    roundDouble x = n * 2 ^ (e - 52) := by
  have hu : (0 : ℚ) < 2 ^ (e - 52) := by positivity
  unfold roundDouble
  rw [binade_eq_of_pos x e he h1 h2,
    roundHalfEven_eq_of_near _ n ((lt_div_iff₀ hu).mpr hn1) ((div_lt_iff₀ hu).mpr hn2)]

theorem roundDouble_of_tie_odd (x : ℚ) (e n : ℤ) (he : -1022 ≤ e) (h1 : 2 ^ e ≤ x)
    (h2 : x < 2 ^ (e + 1)) (hx : x = ((n : ℚ) + 1 / 2) * 2 ^ (e - 52)) (hn : n % 2 = 1) :
    roundDouble x = (n + 1) * 2 ^ (e - 52) := by
  have hu : (0 : ℚ) < 2 ^ (e - 52) := by positivity
  unfold roundDouble
  rw [binade_eq_of_pos x e he h1 h2,
    roundHalfEven_tie_odd _ n ((div_eq_iff hu.ne').mpr hx) hn]
  push_cast
  ring

/-! ## Item creation: proofs -/

theorem getItemsLoop_length (n : ℕ) (rnd : Rand) : (getItemsLoop n rnd).length = n := by
  induction n generalizing rnd with
  | zero => rfl
  | succ n ih => simp [getItemsLoop, ih]

theorem drop_drop (rnd : Rand) (a b : ℕ) : (rnd.drop a).drop b = rnd.drop (b + a) := by
  funext n
  simp [Rand.drop, Nat.add_assoc]

theorem getItemsLoop_get (n : ℕ) (rnd : Rand) (i : ℕ) (hi : i < n) :
    (getItemsLoop n rnd)[i]? = some (newItem (rnd.drop (5 * i))) := by
  induction n generalizing rnd i with
  | zero => omega
  | succ n ih =>
    cases i with
    | zero =>
      simp only [getItemsLoop, List.getElem?_cons_zero]
      congr
    | succ j =>
      simp only [getItemsLoop, List.getElem?_cons_succ]
      rw [ih (rnd.drop 5) j (by omega), drop_drop]
      congr 3

theorem valid_drop (rnd : Rand) (h : rnd.Valid) (k : ℕ) : (rnd.drop k).Valid :=
  fun n => h (n + k)

theorem halfRnd_valid : halfRnd.Valid := fun _ => by norm_num [halfRnd]

theorem doubles_drop (rnd : Rand) (h : rnd.Doubles) (k : ℕ) : (rnd.drop k).Doubles :=
  fun n => h (n + k)

theorem isDouble_zero : IsDouble 0 := ⟨0, 0, by norm_num, by norm_num, by norm_num⟩

theorem getRandomInt_ge (lo hi : ℤ) (r : ℚ) (h0 : 0 ≤ r) (hlh : lo ≤ hi)
    (hlo : |lo| < 2 ^ 53) : lo ≤ getRandomInt lo hi r := by
  unfold getRandomInt
  have hpos : (0 : ℚ) ≤ (hi : ℚ) - lo + 1 := by
    have : (lo : ℚ) ≤ hi := by exact_mod_cast hlh
    linarith
  have h1 : 0 ≤ roundDouble (r * ((hi : ℚ) - lo + 1)) :=
    le_roundDouble _ 0 isDouble_zero (mul_nonneg h0 hpos)
  rw [Int.le_floor]
  exact le_roundDouble _ _ (isDouble_int lo hlo) (by linarith)

/-- With bounds 0 and 4 the result is at most 4 for every double draw below 1: the product
with 5 is at most `5 - 5 * 2^-53`, nearer to the double `5 - 2^-50` than to 5. -/
theorem getRandomInt_id_le (r : ℚ) (h1 : r < 1) (hd : IsDouble r) :
    getRandomInt 0 4 r ≤ 4 := by
  unfold getRandomInt
  have hr := isDouble_lt_one r hd h1
  have hd5 : IsDouble (5 - 1 / 2 ^ 50) :=
    ⟨5 * 2 ^ 50 - 1, -50, by norm_num, by norm_num, by norm_num⟩
  have hlt : roundDouble (r * 5) < 5 := by
    apply roundDouble_lt _ _ _ hd5
    rw [abs_lt]
    constructor <;> linarith
  have hx : r * (((4 : ℤ) : ℚ) - ((0 : ℤ) : ℚ) + 1) = r * 5 := by norm_num
  rw [hx, Int.cast_zero, add_zero, roundDouble_idem, ← Int.lt_add_one_iff, Int.floor_lt]
  push_cast
  linarith

/-- With bounds 30 and 50 the result is at most 50 for every draw up to `1 - 2^-51`. -/
theorem getRandomInt_size_le (r : ℚ) (h1 : r ≤ 1 - 1 / 2 ^ 51) :
    getRandomInt 30 50 r ≤ 50 := by
  unfold getRandomInt
  have hd1 : IsDouble (21 - 1 / 2 ^ 47) :=
    ⟨21 * 2 ^ 47 - 1, -47, by norm_num, by norm_num, by norm_num⟩
  have hd2 : IsDouble (51 - 1 / 2 ^ 47) :=
    ⟨51 * 2 ^ 47 - 1, -47, by norm_num, by norm_num, by norm_num⟩
  have h2 : roundDouble (r * 21) ≤ 21 - 1 / 2 ^ 47 := roundDouble_le _ _ hd1 (by linarith)
  have h3 : roundDouble (roundDouble (r * 21) + 30) ≤ 51 - 1 / 2 ^ 47 :=
    roundDouble_le _ _ hd2 (by linarith)
  have hx : r * (((50 : ℤ) : ℚ) - ((30 : ℤ) : ℚ) + 1) = r * 21 := by norm_num
  have e30 : ((30 : ℤ) : ℚ) = 30 := by norm_num
  rw [hx, e30, ← Int.lt_add_one_iff, Int.floor_lt]
  push_cast
  linarith

theorem item_y_le (r : ℚ) (h0 : 0 ≤ r) : roundDouble (r * (-200)) ≤ 0 :=
  roundDouble_le _ 0 isDouble_zero (by linarith)

theorem item_y_gt (r : ℚ) (h1 : r < 1) (hd : IsDouble r) : -200 < roundDouble (r * (-200)) := by
  have hr := isDouble_lt_one r hd h1
  have hdd : IsDouble (-200 + 1 / 2 ^ 45) :=
    ⟨-(200 * 2 ^ 45 - 1), -45, by norm_num, by norm_num, by norm_num⟩
  apply lt_roundDouble _ _ _ hdd
  rw [abs_lt]
  constructor <;> linarith

theorem item_y_neg_iff (r : ℚ) (h0 : 0 ≤ r) (hd : IsDouble r) :
    roundDouble (r * (-200)) < 0 ↔ r ≠ 0 := by
  constructor
  · intro hlt hz
    rw [hz, zero_mul, roundDouble_zero] at hlt
    exact lt_irrefl _ hlt
  · intro hne
    have hpos : 0 < r := lt_of_le_of_ne h0 (Ne.symm hne)
    have hmin := isDouble_pos r hd hpos
    have hdd : IsDouble (-(2 ^ (-1074 : ℤ))) :=
      ⟨-1, -1074, by norm_num, by norm_num, by norm_num⟩
    have hp : (0 : ℚ) < 2 ^ (-1074 : ℤ) := by positivity
    have := roundDouble_le (r * (-200)) _ hdd (by linarith)
    linarith

theorem item_speed_ge (r : ℚ) (h0 : 0 ≤ r) : 3 ≤ roundDouble (roundDouble (r * 7) + 3) := by
  have h1 : 0 ≤ roundDouble (r * 7) := le_roundDouble _ 0 isDouble_zero (by linarith)
  have hd3 : IsDouble 3 := ⟨3, 0, by norm_num, by norm_num, by norm_num⟩
  exact le_roundDouble _ 3 hd3 (by linarith)

theorem item_speed_lt (r : ℚ) (h1 : r ≤ 1 - 1 / 2 ^ 51) :
    roundDouble (roundDouble (r * 7) + 3) < 10 := by
  have hd1 : IsDouble (7 - 1 / 2 ^ 49) :=
    ⟨7 * 2 ^ 49 - 1, -49, by norm_num, by norm_num, by norm_num⟩
  have hd2 : IsDouble (10 - 1 / 2 ^ 49) :=
    ⟨10 * 2 ^ 49 - 1, -49, by norm_num, by norm_num, by norm_num⟩
  have h2 := roundDouble_le (r * 7) _ hd1 (by linarith)
  have h3 := roundDouble_le (roundDouble (r * 7) + 3) _ hd2 (by linarith)
  linarith

/-- Claim C9 (amended): for every stream of draws that are doubles in `[0, 1)`, `getItems`
returns exactly 15 items, keyed 0 to 14, and item `i` has `-200 < y ≤ 0`, with `y < 0`
exactly when its y-draw (draw `5 i + 3`) is not 0, speed at least 3, and below 10 when its
speed draw (draw `5 i + 4`) is at most `1 - 2^-51`, kind `id` an integer in `[0, 4]`, and
equal integer width and height of at least 30, and at most 50 when its size draw (draw
`5 i`) is at most `1 - 2^-51`. -/
theorem getItems_fifteen_items (rnd : Rand) (h : rnd.Valid) (hd : rnd.Doubles) :
    (getItems rnd).1.length = 15 ∧
    ∀ i, i < 15 → ∃ item, (getItems rnd).1[i]? = some item ∧
      item.position.y ≤ 0 ∧ -200 < item.position.y ∧
      (item.position.y < 0 ↔ rnd (5 * i + 3) ≠ 0) ∧
      3 ≤ item.speed ∧ (rnd (5 * i + 4) ≤ 1 - 1 / 2 ^ 51 → item.speed < 10) ∧
      0 ≤ item.id ∧ item.id ≤ 4 ∧
      item.width = item.height ∧
      ∃ n : ℤ, item.width = (n : ℚ) ∧ 30 ≤ n ∧ (rnd (5 * i) ≤ 1 - 1 / 2 ^ 51 → n ≤ 50) := by
  refine ⟨getItemsLoop_length 15 rnd, ?_⟩
  intro i hi
  have e0 : (rnd.drop (5 * i)) 0 = rnd (5 * i) := by simp [Rand.drop]
  have e1 : (rnd.drop (5 * i)) 1 = rnd (5 * i + 1) := by simp [Rand.drop, Nat.add_comm]
  have e3 : (rnd.drop (5 * i)) 3 = rnd (5 * i + 3) := by simp [Rand.drop, Nat.add_comm]
  have e4 : (rnd.drop (5 * i)) 4 = rnd (5 * i + 4) := by simp [Rand.drop, Nat.add_comm]
  refine ⟨newItem (rnd.drop (5 * i)), getItemsLoop_get 15 rnd i hi, ?_, ?_, ?_, ?_, ?_, ?_, ?_,
    rfl, getRandomInt 30 50 ((rnd.drop (5 * i)) 0), rfl, ?_, ?_⟩
  · show roundDouble ((rnd.drop (5 * i)) 3 * (-200)) ≤ 0
    rw [e3]
    exact item_y_le _ (h _).1
  · show -200 < roundDouble ((rnd.drop (5 * i)) 3 * (-200))
    rw [e3]
    exact item_y_gt _ (h _).2 (hd _)
  · show roundDouble ((rnd.drop (5 * i)) 3 * (-200)) < 0 ↔ _
    rw [e3]
    exact item_y_neg_iff _ (h _).1 (hd _)
  · show 3 ≤ roundDouble (roundDouble ((rnd.drop (5 * i)) 4 * 7) + 3)
    rw [e4]
    exact item_speed_ge _ (h _).1
  · intro hle
    show roundDouble (roundDouble ((rnd.drop (5 * i)) 4 * 7) + 3) < 10
    rw [e4]
    exact item_speed_lt _ hle
  · show 0 ≤ getRandomInt 0 4 ((rnd.drop (5 * i)) 1)
    rw [e1]
    exact getRandomInt_ge 0 4 _ (h _).1 (by norm_num) (by norm_num)
  · show getRandomInt 0 4 ((rnd.drop (5 * i)) 1) ≤ 4
    rw [e1]
    exact getRandomInt_id_le _ (h _).2 (hd _)
  · rw [e0]
    exact getRandomInt_ge 30 50 _ (h _).1 (by norm_num) (by norm_num)
  · intro hle
    rw [e0]
    exact getRandomInt_size_le _ hle


theorem halfRnd_doubles : halfRnd.Doubles :=
  fun _ => ⟨1, -1, by norm_num, by norm_num, by norm_num [halfRnd]⟩

/-- Witness for C9: when every draw is 1/2 there are 15 items and the first has
`-200 < y < 0`, speed in `[3, 10)`, `id` in `[0, 4]` and equal integer sides in
`[30, 50]`. -/
theorem getItems_fifteen_items_witness :
    halfRnd.Valid ∧ halfRnd.Doubles ∧ (getItems halfRnd).1.length = 15 ∧
    ∃ item : Item, (getItems halfRnd).1[0]? = some item ∧
      -200 < item.position.y ∧ item.position.y < 0 ∧ 3 ≤ item.speed ∧ item.speed < 10 ∧
      0 ≤ item.id ∧ item.id ≤ 4 ∧ item.width = item.height ∧
      ∃ n : ℤ, item.width = (n : ℚ) ∧ 30 ≤ n ∧ n ≤ 50 := by
  have h := getItems_fifteen_items halfRnd halfRnd_valid halfRnd_doubles
  obtain ⟨item, h1, -, h3, h4, h5, h6, h7, h8, h9, n, h10, h11, h12⟩ := h.2 0 (by norm_num)
  exact ⟨halfRnd_valid, halfRnd_doubles, h.1, item, h1, h3, h4.mpr (by norm_num [halfRnd]), h5,
    h6 (by norm_num [halfRnd]), h7, h8, h9, n, h10, h11, h12 (by norm_num [halfRnd])⟩

theorem edgeRnd_valid : edgeRnd.Valid := by
  intro n
  unfold edgeRnd
  split_ifs <;> norm_num

theorem edgeRnd_doubles : edgeRnd.Doubles := by
  intro n
  unfold edgeRnd
  split_ifs
  · exact ⟨2 ^ 52 - 1, -52, by norm_num, by norm_num, by norm_num⟩
  · exact isDouble_zero
  · exact ⟨2 ^ 53 - 1, -53, by norm_num, by norm_num, by norm_num⟩
  · exact ⟨1, -1, by norm_num, by norm_num, by norm_num⟩

/-- At the draw `1 - 2^-52` the product with 21 rounds to `21 - 2^-48`, the sum with 30 is
the tie `51 - 2^-48` and rounds to the even neighbour 51: `getRandomInt(30, 50)` is 51. -/
theorem getRandomInt_edge : getRandomInt 30 50 (1 - 1 / 2 ^ 52) = 51 := by
  unfold getRandomInt
  have hx : ((1 : ℚ) - 1 / 2 ^ 52) * (((50 : ℤ) : ℚ) - ((30 : ℤ) : ℚ) + 1) =
      21 - 21 / 2 ^ 52 := by norm_num
  have e30 : ((30 : ℤ) : ℚ) = 30 := by norm_num
  have a1 : roundDouble (21 - 21 / 2 ^ 52) = 21 - 1 / 2 ^ 48 := by
    rw [roundDouble_of_near _ 4 (21 * 2 ^ 48 - 1) (by norm_num) (by norm_num) (by norm_num)
      (by norm_num) (by norm_num)]
    norm_num
  have a2 : roundDouble (21 - 1 / 2 ^ 48 + 30) = 51 := by
    rw [roundDouble_of_tie_odd _ 5 (51 * 2 ^ 47 - 1) (by norm_num) (by norm_num)
      (by norm_num) (by norm_num) (by norm_num)]
    norm_num
  rw [hx, e30, a1, a2]
  norm_num

/-- At the draw `1 - 2^-53` the product with 7 rounds to `7 - 2^-50`, the sum with 3 is the
tie `10 - 2^-50` and rounds to the even neighbour 10. -/
theorem item_speed_edge : roundDouble (roundDouble ((1 - 1 / 2 ^ 53) * 7) + 3) = 10 := by
  have a1 : roundDouble ((1 - 1 / 2 ^ 53) * 7) = 7 - 1 / 2 ^ 50 := by
    rw [roundDouble_of_near _ 2 (7 * 2 ^ 50 - 1) (by norm_num) (by norm_num) (by norm_num)
      (by norm_num) (by norm_num)]
    norm_num
  have a2 : roundDouble (7 - 1 / 2 ^ 50 + 3) = 10 := by
    rw [roundDouble_of_tie_odd _ 3 (10 * 2 ^ 49 - 1) (by norm_num) (by norm_num)
      (by norm_num) (by norm_num) (by norm_num)]
    norm_num
  rw [a1, a2]

/-- Counterexample to C9 as stated: with the doubles `1 - 2^-52`, `0` and `1 - 2^-53` of
`[0, 1)` as the size draw, the y-draw and the speed draw of the first item, that item has
`y = 0`, speed exactly 10 and width and height 51, so `y < 0`, `speed < 10` and
`width ≤ 50` all fail. -/
theorem getItems_edge_counterexample :
    edgeRnd.Valid ∧ edgeRnd.Doubles ∧
    ∃ item, (getItems edgeRnd).1[0]? = some item ∧
      item.position.y = 0 ∧ item.speed = 10 ∧ item.width = 51 ∧ item.height = 51 := by
  have e0 : edgeRnd 0 = 1 - 1 / 2 ^ 52 := by simp [edgeRnd]
  have e3 : edgeRnd 3 = 0 := by simp [edgeRnd]
  have e4 : edgeRnd 4 = 1 - 1 / 2 ^ 53 := by simp [edgeRnd]
  have hsize : ((getRandomInt 30 50 (edgeRnd 0) : ℤ) : ℚ) = 51 := by
    rw [e0, getRandomInt_edge]
    norm_num
  refine ⟨edgeRnd_valid, edgeRnd_doubles, newItem edgeRnd, rfl, ?_, ?_, hsize, hsize⟩
  · show roundDouble (edgeRnd 3 * (-200)) = 0
    rw [e3, zero_mul, roundDouble_zero]
  · show roundDouble (roundDouble (edgeRnd 4 * 7) + 3) = 10
    rw [e4, item_speed_edge]

/-! ## Collision pass: proofs -/

/-- Claim C10 (evaluation at the failing input): `a` and `b` are both alive and both
circles intersect the rectangle of item 0 where it stands at the start of the pass; `a`, first
in iteration order, is hit and the item is recycled to (520, -100) before `b` is tested, so
`a` ends the pass dead and `b` ends it alive. -/
theorem collisionDetection_spares_second_player :
    halfRnd.Valid ∧
    (∀ e ∈ crowdedRoom.players, e.2.alive = true ∧ ∃ item ∈ crowdedRoom.items,
      collisionCheckCircleRect ⟨e.2.position.x, e.2.position.y, e.2.radius⟩
        ⟨item.position.x, item.position.y, item.width, item.height⟩ = true) ∧
    (lookup "a" (collisionDetection crowdedRoom halfRnd).1.players).map (fun p => p.alive) =
      some false ∧
    (lookup "b" (collisionDetection crowdedRoom halfRnd).1.players).map (fun p => p.alive) =
      some true := by
  refine ⟨halfRnd_valid, ?_, ?_, ?_⟩
  · simp [crowdedRoom, sampleRoom, samplePlayerAt, samplePlayer, collisionCheckCircleRect]
    norm_num
  · simp [crowdedRoom, sampleRoom, samplePlayerAt, samplePlayer, collisionCheckCircleRect,
      collisionDetection, collideItems, collidePlayers, resetItem, halfRnd, lookup, WIDTH]
    norm_num
    simp [lookup]
  · simp [crowdedRoom, sampleRoom, samplePlayerAt, samplePlayer, collisionCheckCircleRect,
      collisionDetection, collideItems, collidePlayers, resetItem, halfRnd, lookup, WIDTH]
    norm_num
    simp [lookup]

/-! ## Server events: proofs -/

theorem lookup_remove_self {α : Type} (k : String) (l : List (String × α)) :
    lookup k (remove k l) = none := by
  induction l with
  | nil => rfl
  | cons e rest ih =>
    obtain ⟨k', v⟩ := e
    by_cases h : k' = k <;> simp [remove, lookup, h, ih]

theorem lookup_remove_ne {α : Type} (k k2 : String) (l : List (String × α)) (hne : k2 ≠ k) :
    lookup k2 (remove k l) = lookup k2 l := by
  induction l with
  | nil => rfl
  | cons e rest ih =>
    obtain ⟨k', v⟩ := e
    by_cases h : k' = k
    · subst h
      simp [remove, lookup, Ne.symm hne, ih]
    · by_cases h2 : k' = k2
      · subst h2
        simp [remove, lookup, h]
      · simp [remove, lookup, h, h2, ih]

theorem keysOf_modify {α : Type} (k : String) (f : α → α) (l : List (String × α)) :
    keysOf (modify k f l) = keysOf l := by
  induction l with
  | nil => rfl
  | cons e rest ih =>
    obtain ⟨k', v⟩ := e
    by_cases h : k' = k
    · simp [modify, h, keysOf]
    · simp only [modify, h, if_false, keysOf, List.map_cons] at ih ⊢
      rw [ih]

theorem keysOf_map_entry {α β : Type} (F : String × α → String × β) (l : List (String × α))
    (hF : ∀ e, (F e).1 = e.1) : keysOf (l.map F) = keysOf l := by
  simp [keysOf, List.map_map, Function.comp_def, hF]

theorem mem_keysOf_assign {α : Type} (k x : String) (v : α) (l : List (String × α)) :
    x ∈ keysOf (assign k v l) ↔ x = k ∨ x ∈ keysOf l := by
  induction l with
  | nil => simp [assign, keysOf]
  | cons e rest ih =>
    obtain ⟨k', v'⟩ := e
    by_cases h : k' = k
    · subst h
      simp [assign, keysOf]
    · simp only [assign, h, if_false, keysOf, List.map_cons, List.mem_cons] at ih ⊢
      rw [ih]
      tauto

theorem mem_keysOf_remove {α : Type} (k x : String) (l : List (String × α)) :
    x ∈ keysOf (remove k l) ↔ x ≠ k ∧ x ∈ keysOf l := by
  induction l with
  | nil => simp [remove, keysOf]
  | cons e rest ih =>
    obtain ⟨k', v'⟩ := e
    by_cases h : k' = k
    · subst h
      simp only [remove, if_true, keysOf, List.map_cons, List.mem_cons] at ih ⊢
      rw [ih]
      constructor
      · rintro ⟨h1, h2⟩; exact ⟨h1, Or.inr h2⟩
      · rintro ⟨h1, h2 | h2⟩
        · exact absurd h2 h1
        · exact ⟨h1, h2⟩
    · simp only [remove, h, if_false, keysOf, List.map_cons, List.mem_cons] at ih ⊢
      rw [ih]
      constructor
      · rintro (h1 | ⟨h1, h2⟩)
        · exact ⟨fun hx => h (h1 ▸ hx), Or.inl h1⟩
        · exact ⟨h1, Or.inr h2⟩
      · rintro ⟨h1, h2 | h2⟩
        · exact Or.inl h2
        · exact Or.inr ⟨h1, h2⟩

theorem lookup_mem {α : Type} (k : String) (v : α) (l : List (String × α))
    (h : lookup k l = some v) : (k, v) ∈ l := by
  induction l with
  | nil => cases h
  | cons e rest ih =>
    obtain ⟨k', v'⟩ := e
    by_cases hk : k' = k
    · subst hk
      simp only [lookup, if_true, Option.some.injEq] at h
      subst h
      exact List.mem_cons_self _ _
    · simp only [lookup, hk, if_false] at h
      exact List.mem_cons_of_mem _ (ih h)

theorem mem_assign {α : Type} (k : String) (v : α) (l : List (String × α)) (x : String × α)
    (h : x ∈ assign k v l) : x = (k, v) ∨ x ∈ l := by
  induction l with
  | nil => simpa [assign] using h
  | cons e rest ih =>
    obtain ⟨k', v'⟩ := e
    by_cases hk : k' = k
    · simp only [assign, hk, if_true, List.mem_cons] at h
      rcases h with h | h
      · exact Or.inl h
      · exact Or.inr (List.mem_cons_of_mem _ h)
    · simp only [assign, hk, if_false, List.mem_cons] at h
      rcases h with h | h
      · exact Or.inr (h ▸ List.mem_cons_self _ _)
      · rcases ih h with h2 | h2
        · exact Or.inl h2
        · exact Or.inr (List.mem_cons_of_mem _ h2)

theorem mem_remove {α : Type} (k : String) (l : List (String × α)) (x : String × α)
    (h : x ∈ remove k l) : x.1 ≠ k ∧ x ∈ l := by
  induction l with
  | nil => cases h
  | cons e rest ih =>
    obtain ⟨k', v'⟩ := e
    by_cases hk : k' = k
    · simp only [remove, hk, if_true] at h
      exact ⟨(ih h).1, List.mem_cons_of_mem _ (ih h).2⟩
    · simp only [remove, hk, if_false, List.mem_cons] at h
      rcases h with h | h
      · subst h
        exact ⟨hk, List.mem_cons_self _ _⟩
      · exact ⟨(ih h).1, List.mem_cons_of_mem _ (ih h).2⟩

theorem mem_keysOf_of_lookup {α : Type} (k : String) (v : α) (l : List (String × α))
    (h : lookup k l = some v) : k ∈ keysOf l :=
  List.mem_map_of_mem Prod.fst (lookup_mem k v l h)

theorem lookup_of_mem_keysOf {α : Type} (k : String) (l : List (String × α))
    (h : k ∈ keysOf l) : ∃ v, lookup k l = some v := by
  induction l with
  | nil => cases h
  | cons e rest ih =>
    obtain ⟨k', v'⟩ := e
    by_cases hk : k' = k
    · exact ⟨v', by simp [lookup, hk]⟩
    · simp only [keysOf, List.map_cons, List.mem_cons] at h
      rcases h with h | h
      · exact absurd h.symm hk
      · obtain ⟨v, hv⟩ := ih h
        exact ⟨v, by simp [lookup, hk, hv]⟩


theorem keysOf_collidePlayers (item : Item) (players : List (String × Player)) (rnd : Rand) :
    keysOf (collidePlayers item players rnd).2.1 = keysOf players := by
  induction players generalizing item rnd with
  | nil => rfl
  | cons e rest ih =>
    obtain ⟨key, player⟩ := e
    cases hh : hits item player
    · rw [collidePlayers_cons_miss item key player rest rnd hh]
      simp only [keysOf, List.map_cons] at ih ⊢
      rw [ih]
    · rw [collidePlayers_cons_hit item key player rest rnd hh]
      simp only [keysOf, List.map_cons] at ih ⊢
      rw [ih]

theorem keysOf_collideItems (items : List Item) (players : List (String × Player))
    (rnd : Rand) : keysOf (collideItems items players rnd).2.1 = keysOf players := by
  induction items generalizing players rnd with
  | nil => rfl
  | cons item rest ih =>
    unfold collideItems
    simp only []
    rw [ih, keysOf_collidePlayers]

theorem keysOf_checkGameOver (g : Game) :
    keysOf (checkGameOver g).players = keysOf g.players := by
  unfold checkGameOver
  simp only []
  split_ifs
  · exact keysOf_modify _ _ _
  · rfl

theorem checkHost_players (sockets : List (String × String)) (g : Game) :
    (checkHost sockets g).players = g.players := by
  unfold checkHost
  simp only []
  split_ifs <;> rfl

theorem keysOf_updatePlayers (g : Game) :
    keysOf (updatePlayers g).players = keysOf g.players :=
  keysOf_map_entry _ g.players (fun _ => rfl)

theorem keysOf_tickRoom (sockets : List (String × String)) (g : Game) (rnd : Rand) :
    keysOf (tickRoom sockets g rnd).1.players = keysOf g.players := by
  have h1 : keysOf (updatePlayers (checkHost sockets g)).players = keysOf g.players := by
    rw [keysOf_updatePlayers, checkHost_players]
  unfold tickRoom
  simp only []
  split_ifs
  · rw [keysOf_checkGameOver]
    show keysOf (collideItems _ _ _).2.1 = _
    rw [keysOf_collideItems]
    exact h1
  · exact h1

theorem tickRoom_host (sockets : List (String × String)) (g : Game) (rnd : Rand) :
    (tickRoom sockets g rnd).1.host = (checkHost sockets g).host := by
  unfold tickRoom
  simp only []
  split_ifs
  · unfold checkGameOver
    simp only []
    split_ifs <;> rfl
  · rfl

theorem keysOf_ne_nil {α : Type} (l : List (String × α)) : keysOf l ≠ [] ↔ l ≠ [] := by
  cases l <;> simp [keysOf]

theorem GameOk.of_keys {g g2 : Game} (h : GameOk g)
    (hk : keysOf g2.players = keysOf g.players) (hh : g2.host = g.host) : GameOk g2 := by
  refine ⟨?_, by rw [hh]; exact h.2⟩
  rw [← keysOf_ne_nil, hk, keysOf_ne_nil]
  exact h.1

theorem checkHost_host_isSome (sockets : List (String × String)) (g : Game) (h : GameOk g) :
    (checkHost sockets g).host.isSome = true := by
  unfold checkHost
  simp only []
  split_ifs
  · show ((g.players.head?).map Prod.fst).isSome = true
    cases hp : g.players with
    | nil => exact absurd hp h.1
    | cons e rest => rfl
  · exact h.2

theorem tickRoom_ok (sockets : List (String × String)) (g : Game) (rnd : Rand)
    (h : GameOk g) : GameOk (tickRoom sockets g rnd).1 := by
  refine ⟨?_, by rw [tickRoom_host]; exact checkHost_host_isSome sockets g h⟩
  rw [← keysOf_ne_nil, keysOf_tickRoom, keysOf_ne_nil]
  exact h.1

theorem keysOf_resetRound (g : Game) (now : ℤ) :
    keysOf (resetRound g now).players = keysOf g.players := by
  unfold resetRound
  simp only []
  split_ifs
  · show keysOf ((modify _ _ g.players).map _) = _
    rw [keysOf_map_entry, keysOf_modify]
    exact fun _ => rfl
  · exact keysOf_map_entry _ g.players (fun _ => rfl)

theorem resetRound_host (g : Game) (now : ℤ) : (resetRound g now).host = g.host :=
  (resetRound_fields g now).2.2.2.1

theorem setKey_frame (g g1 : Game) (socketId direction : String) (pressed : Bool)
    (h : setKey g socketId direction pressed = some g1) :
    keysOf g1.players = keysOf g.players ∧ g1.host = g.host := by
  unfold setKey at h
  by_cases hd : direction = "up" ∨ direction = "down" ∨ direction = "right" ∨
      direction = "left"
  · rw [if_pos hd] at h
    cases hl : lookup socketId g.players with
    | none => rw [hl] at h; cases h
    | some q =>
      rw [hl] at h
      simp only [Option.some.injEq] at h
      subst h
      exact ⟨keysOf_modify _ _ _, rfl⟩
  · rw [if_neg hd] at h
    simp only [Option.some.injEq] at h
    subst h
    exact ⟨rfl, rfl⟩


theorem Evolves.refl (l : List (String × Game)) : Evolves l l :=
  ⟨fun _ g h => ⟨g, h, rfl⟩, fun x hx => ⟨x.2, hx, id⟩⟩

theorem Evolves.assign (l : List (String × Game)) (room : String) (g g2 : Game)
    (hl : lookup room l = some g) (hk : keysOf g2.players = keysOf g.players)
    (hok : GameOk g → GameOk g2) : Evolves l (assign room g2 l) := by
  constructor
  · intro r g0 h0
    by_cases hr : r = room
    · subst hr
      rw [hl] at h0
      cases h0
      exact ⟨g2, lookup_assign_self _ _ _, hk⟩
    · exact ⟨g0, by rw [lookup_assign_ne _ _ _ _ hr]; exact h0, rfl⟩
  · intro x hx
    rcases mem_assign _ _ _ _ hx with h | h
    · subst h
      exact ⟨g, lookup_mem _ _ _ hl, hok⟩
    · exact ⟨x.2, h, id⟩

theorem gameLoopRooms_lookup (sockets : List (String × String)) (l : List (String × Game))
    (rnd : Rand) (r : String) :
    ∃ rnd2, lookup r (gameLoopRooms sockets l rnd).1 =
      (lookup r l).map (fun g => (tickRoom sockets g rnd2).1) := by
  induction l generalizing rnd with
  | nil => exact ⟨rnd, rfl⟩
  | cons e rest ih =>
    obtain ⟨room, g⟩ := e
    by_cases h : room = r
    · exact ⟨rnd, by simp [gameLoopRooms, lookup, h]⟩
    · obtain ⟨rnd2, h2⟩ := ih (tickRoom sockets g rnd).2
      exact ⟨rnd2, by simp only [gameLoopRooms, lookup, h, if_false]; exact h2⟩

theorem gameLoopRooms_mem (sockets : List (String × String)) (l : List (String × Game))
    (rnd : Rand) (x : String × Game) (hx : x ∈ (gameLoopRooms sockets l rnd).1) :
    ∃ g rnd2, (x.1, g) ∈ l ∧ x.2 = (tickRoom sockets g rnd2).1 := by
  induction l generalizing rnd with
  | nil => cases hx
  | cons e rest ih =>
    obtain ⟨room, g⟩ := e
    simp only [gameLoopRooms, List.mem_cons] at hx
    rcases hx with h | h
    · subst h
      exact ⟨g, rnd, List.mem_cons_self _ _, rfl⟩
    · obtain ⟨g0, rnd2, hm, he⟩ := ih _ h
      exact ⟨g0, rnd2, List.mem_cons_of_mem _ hm, he⟩

theorem Evolves.gameLoop (sockets : List (String × String)) (l : List (String × Game))
    (rnd : Rand) : Evolves l (gameLoopRooms sockets l rnd).1 := by
  constructor
  · intro r g h
    obtain ⟨rnd2, h2⟩ := gameLoopRooms_lookup sockets l rnd r
    rw [h] at h2
    exact ⟨_, h2, keysOf_tickRoom _ _ _⟩
  · intro x hx
    obtain ⟨g, rnd2, hm, he⟩ := gameLoopRooms_mem sockets l rnd x hx
    exact ⟨g, hm, fun hok => he ▸ tickRoom_ok sockets g rnd2 hok⟩

theorem Inv.of_evolves {w : World} (h : Inv w) (s2 : Server)
    (he : Evolves w.server.games s2.games)
    (hr : s2.increaseSpeed = w.server.increaseSpeed ∨
      ∃ room g, s2.increaseSpeed = some room ∧ lookup room s2.games = some g) :
    Inv { server := s2, conns := w.conns } := by
  refine ⟨?_, ?_, ?_⟩
  · intro x hx
    obtain ⟨g, hm, hok⟩ := he.2 x hx
    exact hok (h.rooms _ hm)
  · intro c r hc hne
    obtain ⟨g, hg, hmem⟩ := h.conns c r hc hne
    obtain ⟨g2, hg2, hk⟩ := he.1 r g hg
    exact ⟨g2, hg2, by rw [hk]; exact hmem⟩
  · intro r hsp
    rcases hr with hr | ⟨room, g, hr, hg⟩
    · show ∃ g, lookup r s2.games = some g
      rw [hr] at hsp
      obtain ⟨g, hg⟩ := h.ramp r hsp
      obtain ⟨g2, hg2, -⟩ := he.1 r g hg
      exact ⟨g2, hg2⟩
    · show ∃ g, lookup r s2.games = some g
      rw [hr] at hsp
      cases hsp
      exact ⟨g, hg⟩

theorem startGame_evolves (s s2 : Server) (room : String) (now : ℤ)
    (h : startGame s room now = some s2) :
    Evolves s.games s2.games ∧ s2.increaseSpeed = s.increaseSpeed := by
  unfold startGame getRoomCount at h
  cases hl : lookup room s.games with
  | none => rw [hl] at h; cases h
  | some g =>
    rw [hl] at h
    simp only [Option.map_some'] at h
    split_ifs at h
    · simp only [Option.some.injEq] at h
      subst h
      exact ⟨Evolves.assign _ _ g _ hl (keysOf_resetRound g now)
        (fun hok => hok.of_keys (keysOf_resetRound g now) (resetRound_host g now)), rfl⟩
    · simp only [Option.some.injEq] at h
      subst h
      exact ⟨Evolves.refl _, rfl⟩

theorem keyEvent_evolves (s s2 : Server) (socketId room direction : String) (pressed : Bool)
    (h : keyEvent s socketId room direction pressed = some s2) :
    Evolves s.games s2.games ∧ s2.increaseSpeed = s.increaseSpeed := by
  unfold keyEvent at h
  by_cases hroom : room ≠ ""
  · rw [if_pos hroom] at h
    by_cases hd : isDirection direction = true
    · rw [if_pos hd] at h
      cases hl : lookup room s.games with
      | none => rw [hl] at h; cases h
      | some g =>
        rw [hl] at h
        dsimp only at h
        cases hk : setKey g socketId direction pressed with
        | none => rw [hk] at h; cases h
        | some g1 =>
          rw [hk] at h
          simp only [Option.map_some', Option.some.injEq] at h
          subst h
          have hf := setKey_frame g g1 socketId direction pressed hk
          exact ⟨Evolves.assign _ _ g _ hl hf.1 (fun hok => hok.of_keys hf.1 hf.2), rfl⟩
    · rw [if_neg hd] at h
      simp only [Option.some.injEq] at h
      subst h
      exact ⟨Evolves.refl _, rfl⟩
  · rw [if_neg hroom] at h
    simp only [Option.some.injEq] at h
    subst h
    exact ⟨Evolves.refl _, rfl⟩


theorem assign_ne_nil {α : Type} (k : String) (v : α) (l : List (String × α)) :
    assign k v l ≠ [] := by
  cases l with
  | nil => simp [assign]
  | cons e rest =>
    obtain ⟨k', v'⟩ := e
    by_cases h : k' = k <;> simp [assign, h]

theorem lookup_assign_isSome {α : Type} (k r : String) (v : α) (l : List (String × α))
    (h : ∃ u, lookup r l = some u) : ∃ u, lookup r (assign k v l) = some u := by
  by_cases hr : r = k
  · subst hr
    exact ⟨v, lookup_assign_self _ _ _⟩
  · rw [lookup_assign_ne _ _ _ _ hr]
    exact h

theorem onJoin_eq_joinRoom (s : Server) (socketId room name : String) (rnd : Rand)
    (out : Server × Rand) (h : onJoin s socketId room name rnd = some out) :
    out = joinRoom s socketId room name rnd := by
  unfold onJoin at h
  cases hl : lookup room s.games with
  | some g =>
    rw [hl] at h
    exact (Option.some.inj h).symm
  | none =>
    rw [hl] at h
    dsimp only at h
    split_ifs at h
    exact (Option.some.inj h).symm

theorem Inv.join {w : World} (h : Inv w) (socketId room name : String) (rnd : Rand) :
    Inv { server := (joinRoom w.server socketId room name rnd).1
          conns := assign socketId room w.conns } := by
  have hgames : (joinRoom w.server socketId room name rnd).1.games =
      assign room (addPlayer ((lookup room w.server.games).getD (newGame socketId))
        socketId name rnd).1 w.server.games := rfl
  have hplayers : ∀ g : Game, (addPlayer g socketId name rnd).1.players =
      assign socketId (newPlayer g name rnd).1 g.players := fun _ => rfl
  refine ⟨?_, ?_, ?_⟩
  · intro x hx
    rw [hgames] at hx
    rcases mem_assign _ _ _ _ hx with hx | hx
    · subst hx
      refine ⟨assign_ne_nil _ _ _, ?_⟩
      show ((lookup room w.server.games).getD (newGame socketId)).host.isSome = true
      cases hl : lookup room w.server.games with
      | none => rfl
      | some g => exact (h.rooms _ (lookup_mem _ _ _ hl)).2
    · exact h.rooms x hx
  · intro c r hc hne
    show ∃ g, lookup r (joinRoom w.server socketId room name rnd).1.games = some g ∧ _
    rw [hgames]
    by_cases hcs : c = socketId
    · subst hcs
      rw [lookup_assign_self] at hc
      cases hc
      refine ⟨_, lookup_assign_self _ _ _, ?_⟩
      rw [hplayers, mem_keysOf_assign]
      exact Or.inl rfl
    · rw [lookup_assign_ne _ _ _ _ hcs] at hc
      obtain ⟨g, hg, hmem⟩ := h.conns c r hc hne
      by_cases hr : r = room
      · subst hr
        refine ⟨_, lookup_assign_self _ _ _, ?_⟩
        rw [hplayers, mem_keysOf_assign, hg]
        exact Or.inr hmem
      · exact ⟨g, by rw [lookup_assign_ne _ _ _ _ hr]; exact hg, hmem⟩
  · intro r hsp
    show ∃ g, lookup r (joinRoom w.server socketId room name rnd).1.games = some g
    rw [hgames]
    exact lookup_assign_isSome _ _ _ _ (h.ramp r hsp)

theorem Inv.disconnect {w : World} (h : Inv w) (socketId room : String) (s2 : Server)
    (hd : onDisconnect w.server socketId room = some s2) :
    Inv { server := s2, conns := remove socketId w.conns } := by
  unfold onDisconnect at hd
  have hconn : ∀ c r, lookup c (remove socketId w.conns) = some r →
      c ≠ socketId ∧ lookup c w.conns = some r := by
    intro c r hc
    have hne : c ≠ socketId := by
      intro heq
      rw [heq, lookup_remove_self] at hc
      cases hc
    exact ⟨hne, by rw [lookup_remove_ne _ _ _ hne] at hc; exact hc⟩
  by_cases hroom : room ≠ ""
  swap
  · rw [if_neg hroom] at hd
    simp only [Option.some.injEq] at hd
    subst hd
    exact ⟨h.rooms, fun c r hc hne => h.conns c r (hconn c r hc).2 hne, h.ramp⟩
  rw [if_pos hroom] at hd
  cases hl : lookup room w.server.games with
  | none => rw [hl] at hd; cases hd
  | some g =>
    rw [hl] at hd
    dsimp only at hd
    have hcount : getRoomCount { w.server with
        games := assign room { g with players := remove socketId g.players } w.server.games
        sockets := remove socketId w.server.sockets } room =
        some (remove socketId g.players).length := by
      simp [getRoomCount, lookup_assign_self]
    rw [hcount] at hd
    dsimp only at hd
    by_cases hz : (remove socketId g.players).length = 0
    · rw [if_pos hz] at hd
      simp only [Option.some.injEq] at hd
      subst hd
      have hnil : remove socketId g.players = [] := List.length_eq_zero.mp hz
      refine ⟨?_, ?_, ?_⟩
      · intro x hx
        have hx2 := mem_remove _ _ _ hx
        rcases mem_assign _ _ _ _ hx2.2 with hx3 | hx3
        · exact absurd (congrArg Prod.fst hx3) hx2.1
        · exact h.rooms x hx3
      · intro c r hc hne
        obtain ⟨hcs, hc2⟩ := hconn c r hc
        obtain ⟨g0, hg0, hmem⟩ := h.conns c r hc2 hne
        have hr : r ≠ room := by
          intro heq
          subst heq
          rw [hl] at hg0
          cases hg0
          have : c ∈ keysOf (remove socketId g.players) :=
            (mem_keysOf_remove _ _ _).mpr ⟨hcs, hmem⟩
          rw [hnil] at this
          cases this
        refine ⟨g0, ?_, hmem⟩
        show lookup r (remove room (assign room _ w.server.games)) = _
        rw [lookup_remove_ne _ _ _ hr, lookup_assign_ne _ _ _ _ hr]
        exact hg0
      · intro r hsp
        cases hsp
    · rw [if_neg hz] at hd
      simp only [Option.some.injEq] at hd
      subst hd
      refine ⟨?_, ?_, ?_⟩
      · intro x hx
        rcases mem_assign _ _ _ _ hx with hx3 | hx3
        · subst hx3
          refine ⟨fun hnil => hz (by rw [show remove socketId g.players = [] from hnil]; rfl),
            (h.rooms _ (lookup_mem _ _ _ hl)).2⟩
        · exact h.rooms x hx3
      · intro c r hc hne
        obtain ⟨hcs, hc2⟩ := hconn c r hc
        obtain ⟨g0, hg0, hmem⟩ := h.conns c r hc2 hne
        by_cases hr : r = room
        · subst hr
          rw [hl] at hg0
          cases hg0
          exact ⟨_, lookup_assign_self _ _ _, (mem_keysOf_remove _ _ _).mpr ⟨hcs, hmem⟩⟩
        · exact ⟨g0, by
            show lookup r (assign room _ w.server.games) = _
            rw [lookup_assign_ne _ _ _ _ hr]; exact hg0, hmem⟩
      · intro r hsp
        exact lookup_assign_isSome _ _ _ _ (h.ramp r hsp)

theorem Inv.init : Inv World.init := by
  refine ⟨?_, ?_, ?_⟩
  · intro x hx
    cases hx
  · intro c r hc
    cases hc
  · intro r hr
    cases hr

theorem Inv.step {w w2 : World} (h : Inv w) (e : Event) (hs : w.step e = some w2) :
    Inv w2 := by
  cases e with
  | connect socketId =>
    simp only [World.step] at hs
    cases hl : lookup socketId w.conns with
    | none =>
      rw [hl] at hs
      simp only [Option.some.injEq] at hs
      subst hs
      refine ⟨h.rooms, ?_, h.ramp⟩
      intro c r hc hne
      by_cases hcs : c = socketId
      · subst hcs
        rw [lookup_assign_self] at hc
        cases hc
        exact absurd rfl hne
      · rw [lookup_assign_ne _ _ _ _ hcs] at hc
        exact h.conns c r hc hne
    | some room =>
      rw [hl] at hs
      simp only [Option.some.injEq] at hs
      subst hs
      exact h
  | join socketId room name rnd =>
    simp only [World.step] at hs
    cases hl : lookup socketId w.conns with
    | none =>
      rw [hl] at hs
      simp only [Option.some.injEq] at hs
      subst hs
      exact h
    | some room0 =>
      rw [hl] at hs
      simp only [Option.map_eq_some'] at hs
      obtain ⟨out, hj, rfl⟩ := hs
      rw [onJoin_eq_joinRoom _ _ _ _ _ _ hj]
      exact h.join socketId room name rnd
  | disconnect socketId =>
    simp only [World.step] at hs
    cases hl : lookup socketId w.conns with
    | none =>
      rw [hl] at hs
      simp only [Option.some.injEq] at hs
      subst hs
      exact h
    | some room =>
      rw [hl] at hs
      simp only [Option.map_eq_some'] at hs
      obtain ⟨s2, hd, rfl⟩ := hs
      exact h.disconnect socketId room s2 hd
  | start socketId now =>
    simp only [World.step] at hs
    cases hl : lookup socketId w.conns with
    | none =>
      rw [hl] at hs
      simp only [Option.some.injEq] at hs
      subst hs
      exact h
    | some room =>
      rw [hl] at hs
      simp only [Option.map_eq_some'] at hs
      obtain ⟨s2, hd, rfl⟩ := hs
      have he := startGame_evolves _ _ _ _ hd
      exact h.of_evolves s2 he.1 (Or.inl he.2)
  | keydown socketId direction =>
    simp only [World.step] at hs
    cases hl : lookup socketId w.conns with
    | none =>
      rw [hl] at hs
      simp only [Option.some.injEq] at hs
      subst hs
      exact h
    | some room =>
      rw [hl] at hs
      simp only [Option.map_eq_some'] at hs
      obtain ⟨s2, hd, rfl⟩ := hs
      have he := keyEvent_evolves _ _ _ _ _ _ hd
      exact h.of_evolves s2 he.1 (Or.inl he.2)
  | keyup socketId direction =>
    simp only [World.step] at hs
    cases hl : lookup socketId w.conns with
    | none =>
      rw [hl] at hs
      simp only [Option.some.injEq] at hs
      subst hs
      exact h
    | some room =>
      rw [hl] at hs
      simp only [Option.map_eq_some'] at hs
      obtain ⟨s2, hd, rfl⟩ := hs
      have he := keyEvent_evolves _ _ _ _ _ _ hd
      exact h.of_evolves s2 he.1 (Or.inl he.2)
  | tick rnd =>
    simp only [World.step, Option.some.injEq] at hs
    subst hs
    exact h.of_evolves _ (Evolves.gameLoop _ _ _) (Or.inl rfl)
  | countdown rnd =>
    simp only [World.step] at hs
    cases ht : w.server.timeouts with
    | nil =>
      rw [ht] at hs
      simp only [Option.some.injEq] at hs
      subst hs
      exact h
    | cons t rest =>
      rw [ht] at hs
      simp only [Option.map_eq_some'] at hs
      obtain ⟨out, hd, rfl⟩ := hs
      unfold countdownCallback at hd
      cases hl : lookup t.room w.server.games with
      | none =>
        simp only [hl] at hd
        cases hd
      | some g =>
        simp only [hl, Option.some.injEq] at hd
        subst hd
        exact h.of_evolves _ (Evolves.assign _ _ g _ hl rfl (fun hok => hok.of_keys rfl rfl))
          (Or.inr ⟨t.room, _, rfl, lookup_assign_self _ _ _⟩)
  | ramp =>
    simp only [World.step] at hs
    cases hr : w.server.increaseSpeed with
    | none =>
      rw [hr] at hs
      simp only [Option.some.injEq] at hs
      subst hs
      exact h
    | some room =>
      rw [hr] at hs
      simp only [Option.map_eq_some'] at hs
      obtain ⟨s2, hd, rfl⟩ := hs
      unfold rampCallback at hd
      cases hl : lookup room w.server.games with
      | none =>
        simp only [hl] at hd
        cases hd
      | some g =>
        simp only [hl, Option.some.injEq] at hd
        subst hd
        exact h.of_evolves _ (Evolves.assign _ _ g _ hl rfl (fun hok => hok.of_keys rfl rfl))
          (Or.inl rfl)

theorem reachable_inv (w : World) (h : Reachable w) : Inv w := by
  induction h with
  | init => exact Inv.init
  | step w w2 e _ hs ih => exact ih.step e hs


theorem onDisconnect_effect (s : Server) (socketId room : String) (g : Game)
    (hroom : room ≠ "") (hreg : lookup room s.games = some g) :
    ∃ s2, onDisconnect s socketId room = some s2 ∧
      lookup socketId s2.sockets = none ∧
      (∀ k, k ≠ socketId → lookup k s2.sockets = lookup k s.sockets) ∧
      lookup socketId (remove socketId g.players) = none ∧
      (∀ k, k ≠ socketId → lookup k (remove socketId g.players) = lookup k g.players) ∧
      ((remove socketId g.players).length = 0 → lookup room s2.games = none) ∧
      ((remove socketId g.players).length ≠ 0 →
        lookup room s2.games = some { g with players := remove socketId g.players }) ∧
      (∀ r, r ≠ room → lookup r s2.games = lookup r s.games) := by
  have hcount : getRoomCount { s with
      games := assign room { g with players := remove socketId g.players } s.games
      sockets := remove socketId s.sockets } room =
      some (remove socketId g.players).length := by
    simp [getRoomCount, lookup_assign_self]
  by_cases hz : (remove socketId g.players).length = 0
  · refine ⟨{ s with
      games := remove room (assign room { g with players := remove socketId g.players } s.games)
      sockets := remove socketId s.sockets
      increaseSpeed := none }, ?_, lookup_remove_self _ _,
      fun k hk => lookup_remove_ne _ _ _ hk, lookup_remove_self _ _,
      fun k hk => lookup_remove_ne _ _ _ hk, fun _ => lookup_remove_self _ _,
      fun h => absurd hz h, ?_⟩
    · unfold onDisconnect
      rw [if_pos hroom, hreg]
      simp only [hcount, hz, if_true]
    · intro r hr
      show lookup r (remove room (assign room _ s.games)) = _
      rw [lookup_remove_ne _ _ _ hr, lookup_assign_ne _ _ _ _ hr]
  · refine ⟨{ s with
      games := assign room { g with players := remove socketId g.players } s.games
      sockets := remove socketId s.sockets }, ?_, lookup_remove_self _ _,
      fun k hk => lookup_remove_ne _ _ _ hk, lookup_remove_self _ _,
      fun k hk => lookup_remove_ne _ _ _ hk, fun h => absurd h hz,
      fun _ => lookup_assign_self _ _ _, ?_⟩
    · unfold onDisconnect
      rw [if_pos hroom, hreg]
      simp only [hcount, hz, if_false]
    · intro r hr
      exact lookup_assign_ne _ _ _ _ hr

/-! ## Claims on the collision order, movement, join, disconnect and timers: proofs -/

/-- Claim C11 (evaluation at the failing input): the same two players, the same item and
the same draws, visited in the order `a`, `b` and in the order `b`, `a`: the first player
visited is hit and the item is recycled before the second is tested, so the pass leaves `b`
alive in the first order and `a` alive in the second. -/
theorem collisionDetection_order_dependent :
    halfRnd.Valid ∧
    crowdedRoomSwapped.items = crowdedRoom.items ∧
    crowdedRoomSwapped.players.Perm crowdedRoom.players ∧
    (alivePlayers (collisionDetection crowdedRoom halfRnd).1).map Prod.fst = ["b"] ∧
    (alivePlayers (collisionDetection crowdedRoomSwapped halfRnd).1).map Prod.fst = ["a"] := by
  refine ⟨halfRnd_valid, rfl, List.reverse_perm _, ?_, ?_⟩
  · simp [alivePlayers, crowdedRoom, sampleRoom, samplePlayerAt, samplePlayer,
      collisionCheckCircleRect, collisionDetection, collideItems, collidePlayers, resetItem,
      halfRnd, WIDTH]
    norm_num
  · simp [alivePlayers, crowdedRoomSwapped, crowdedRoom, sampleRoom, samplePlayerAt,
      samplePlayer, collisionCheckCircleRect, collisionDetection, collideItems, collidePlayers,
      resetItem, halfRnd, WIDTH]
    norm_num


theorem movePlayer_eq_integrate (g : Game) (p : Player) : movePlayer g p = integrate g p := by
  obtain ⟨name, ⟨x, y⟩, speed, color, radius, keys, alive⟩ := p
  unfold movePlayer integrate
  cases alive
  · rfl
  simp only [if_true]
  unfold stepX stepY
  simp only [moveUp, zero_add]
  by_cases h1 : keys.up = true ∧ y > radius + 20
  · simp only [h1, and_self, if_true, moveDown]
    by_cases h2 : keys.down = true ∧ y - speed < g.height - radius - 5
    · simp only [h2, and_self, if_true, moveLeft, zero_add]
      by_cases h3 : keys.left = true ∧ x > radius + 5
      · simp only [h3, and_self, if_true, moveRight]
        split_ifs <;> rfl
      · simp only [h3, if_false, moveRight]
        split_ifs <;> rfl
    · simp only [h2, if_false, moveLeft, zero_add]
      by_cases h3 : keys.left = true ∧ x > radius + 5
      · simp only [h3, and_self, if_true, moveRight]
        split_ifs <;> rfl
      · simp only [h3, if_false, moveRight]
        split_ifs <;> rfl
  · simp only [h1, if_false, moveDown]
    by_cases h2 : keys.down = true ∧ y < g.height - radius - 5
    · simp only [h2, and_self, if_true, moveLeft, zero_add]
      by_cases h3 : keys.left = true ∧ x > radius + 5
      · simp only [h3, and_self, if_true, moveRight]
        split_ifs <;> rfl
      · simp only [h3, if_false, moveRight]
        split_ifs <;> rfl
    · simp only [h2, if_false, moveLeft, zero_add]
      by_cases h3 : keys.left = true ∧ x > radius + 5
      · simp only [h3, and_self, if_true, moveRight]
        split_ifs <;> rfl
      · simp only [h3, if_false, moveRight]
        split_ifs <;> rfl


theorem checkGameOver_position (k : String) (g : Game) :
    (lookup k (checkGameOver g).players).map (fun p => p.position) =
      (lookup k g.players).map (fun p => p.position) := by
  unfold checkGameOver
  simp only []
  split_ifs
  · show (lookup k (modify _ _ g.players)).map _ = _
    by_cases hk : k = (countAlive g.players).2
    · rw [hk, lookup_modify_self]
      cases lookup (countAlive g.players).2 g.players <;> rfl
    · rw [lookup_modify_ne _ _ _ _ hk]
  · rfl

theorem collisionDetection_position (k : String) (g : Game) (rnd : Rand) :
    (lookup k (collisionDetection g rnd).1.players).map (fun p => p.position) =
      (lookup k g.players).map (fun p => p.position) := by
  show (lookup k (collideItems g.items g.players rnd).2.1).map _ = _
  rcases collideItems_lookup k g.items g.players rnd with h | h <;> rw [h]
  cases lookup k g.players <;> rfl

theorem tickRoom_position (k : String) (sockets : List (String × String)) (g : Game)
    (rnd : Rand) :
    (lookup k (tickRoom sockets g rnd).1.players).map (fun p => p.position) =
      (lookup k (updatePlayers g).players).map (fun p => p.position) := by
  have hc : (updatePlayers (checkHost sockets g)).players = (updatePlayers g).players := by
    unfold checkHost
    simp only []
    split_ifs <;> rfl
  unfold tickRoom
  simp only []
  split_ifs
  · rw [checkGameOver_position, collisionDetection_position]
    show (lookup k (updatePlayers (checkHost sockets g)).players).map _ = _
    rw [hc]
  · rw [hc]

theorem updatePlayers_lookup (g : Game) (k : String) (p : Player)
    (h : lookup k g.players = some p) :
    lookup k (updatePlayers g).players = some (integrate g p) := by
  show lookup k (g.players.map (fun e => (e.1, movePlayer g e.2))) = _
  rw [lookup_map_snd, h]
  show some (movePlayer g p) = _
  rw [movePlayer_eq_integrate]

/-- Claim C18 (amended): one `updatePlayers` step leaves a player who is not alive as it is,
and gives an alive player the position of the movement rule, whatever `started` and
`gameOver` are: `up` subtracts the speed from `y` when `y > radius + 20`, then `down` adds it
when the updated `y < height - radius - 5`, `left` subtracts it from `x` when
`x > radius + 5`, then `right` adds it when the updated `x < width - radius - 5`; a key that
is not held moves nothing and no other field changes.  Every tick of the room's game loop
leaves each player at exactly this position. -/
theorem updatePlayers_integrates (g : Game) (k : String) (p : Player)
    (h : lookup k g.players = some p) :
    lookup k (updatePlayers g).players = some (integrate g p) ∧
    (∀ sockets rnd, (lookup k (tickRoom sockets g rnd).1.players).map (fun q => q.position) =
      some (integrate g p).position) ∧
    (p.alive = true →
      integrate g p = { p with position := ⟨stepX g.width p, stepY g.height p⟩ }) ∧
    (p.alive = false → integrate g p = p) := by
  have h1 := updatePlayers_lookup g k p h
  refine ⟨h1, ?_, ?_, ?_⟩
  · intro sockets rnd
    rw [tickRoom_position, h1]
    rfl
  · intro ha
    simp [integrate, ha]
  · intro ha
    simp [integrate, ha]

theorem integrate_cornerMover :
    (integrate moverRoom cornerMover).position = ⟨20, 290⟩ := by
  simp [integrate, stepX, stepY, moverRoom, sampleRoom, cornerMover, samplePlayerAt,
    samplePlayer, WIDTH, HEIGHT]
  norm_num

/-- Witness for C18: an alive player at (30, 300) with speed 10 who holds `up` and `left`
is at (20, 290) after `updatePlayers` and after a whole tick of the room. -/
theorem updatePlayers_integrates_witness :
    lookup "a" moverRoom.players = some cornerMover ∧
    cornerMover.alive = true ∧ cornerMover.keys = ⟨true, false, true, false⟩ ∧
    cornerMover.position = ⟨30, 300⟩ ∧ cornerMover.speed = 10 ∧
    (lookup "a" (updatePlayers moverRoom).players).map (fun q => q.position) =
      some ⟨20, 290⟩ ∧
    (lookup "a" (tickRoom [("a", "r")] moverRoom halfRnd).1.players).map
      (fun q => q.position) = some ⟨20, 290⟩ := by
  have h := updatePlayers_integrates moverRoom "a" cornerMover rfl
  refine ⟨rfl, rfl, rfl, rfl, rfl, ?_, ?_⟩
  · rw [h.1]
    exact congrArg some integrate_cornerMover
  · rw [h.2.1]
    exact congrArg some integrate_cornerMover

/-- Counterexample to C18 as stated: a player who is not alive, holds `up` and stands at
`y = 100 > radius + 20` is not moved by `updatePlayers`; the claim has `y` reduced by the
speed. -/
theorem dead_player_counterexample :
    deadMover.keys.up = true ∧ deadMover.position.y > deadMover.radius + 20 ∧
    (lookup "a" (updatePlayers (sampleRoom [("a", deadMover)] "" false)).players).map
      (fun p => p.position.y) = some deadMover.position.y := by
  refine ⟨rfl, ?_, rfl⟩
  norm_num [deadMover, samplePlayer]

theorem stepX_bounds (w : ℚ) (p : Player) (hs : 0 ≤ p.speed) :
    min p.position.x (p.radius + 5 - p.speed) ≤ stepX w p ∧
    stepX w p ≤ max p.position.x (w - p.radius - 5 + p.speed) ∧
    (stepX w p < p.position.x → p.radius + 5 - p.speed < stepX w p) ∧
    (p.position.x < stepX w p → stepX w p < w - p.radius - 5 + p.speed) := by
  unfold stepX
  simp only []
  split_ifs with h1 h2 h2
  · exact ⟨le_trans (min_le_left _ _) (by linarith), le_trans (by linarith) (le_max_left _ _),
      fun h => by linarith, fun h => by linarith⟩
  · exact ⟨le_trans (min_le_right _ _) (by linarith [h1.2]),
      le_trans (by linarith) (le_max_left _ _), fun _ => by linarith [h1.2],
      fun h => by linarith⟩
  · exact ⟨le_trans (min_le_left _ _) (by linarith),
      le_trans (by linarith [h2.2]) (le_max_right _ _), fun h => by linarith,
      fun _ => by linarith [h2.2]⟩
  · exact ⟨min_le_left _ _, le_max_left _ _, fun h => absurd h (lt_irrefl _),
      fun h => absurd h (lt_irrefl _)⟩

theorem stepY_bounds (h : ℚ) (p : Player) (hs : 0 ≤ p.speed) :
    min p.position.y (p.radius + 20 - p.speed) ≤ stepY h p ∧
    stepY h p ≤ max p.position.y (h - p.radius - 5 + p.speed) ∧
    (stepY h p < p.position.y → p.radius + 20 - p.speed < stepY h p) ∧
    (p.position.y < stepY h p → stepY h p < h - p.radius - 5 + p.speed) := by
  unfold stepY
  simp only []
  split_ifs with h1 h2 h2
  · exact ⟨le_trans (min_le_left _ _) (by linarith), le_trans (by linarith) (le_max_left _ _),
      fun h => by linarith, fun h => by linarith⟩
  · exact ⟨le_trans (min_le_right _ _) (by linarith [h1.2]),
      le_trans (by linarith) (le_max_left _ _), fun _ => by linarith [h1.2],
      fun h => by linarith⟩
  · exact ⟨le_trans (min_le_left _ _) (by linarith),
      le_trans (by linarith [h2.2]) (le_max_right _ _), fun h => by linarith,
      fun _ => by linarith [h2.2]⟩
  · exact ⟨min_le_left _ _, le_max_left _ _, fun h => absurd h (lt_irrefl _),
      fun h => absurd h (lt_irrefl _)⟩

/-- Claim C19: for a player of speed `s ≥ 0`, one `updatePlayers` step ends with
`x ≥ min(x₀, radius + 5 - s)`, `x ≤ max(x₀, width - radius - 5 + s)`,
`y ≥ min(y₀, radius + 20 - s)` and `y ≤ max(y₀, height - radius - 5 + s)`; a coordinate that
moved outwards stays strictly within one step of its margin. -/
theorem updatePlayers_overshoot (g : Game) (k : String) (p : Player)
    (h : lookup k g.players = some p) (hs : 0 ≤ p.speed) :
    ∃ q, lookup k (updatePlayers g).players = some q ∧
      min p.position.x (p.radius + 5 - p.speed) ≤ q.position.x ∧
      q.position.x ≤ max p.position.x (g.width - p.radius - 5 + p.speed) ∧
      min p.position.y (p.radius + 20 - p.speed) ≤ q.position.y ∧
      q.position.y ≤ max p.position.y (g.height - p.radius - 5 + p.speed) ∧
      (q.position.x < p.position.x → p.radius + 5 - p.speed < q.position.x) ∧
      (p.position.x < q.position.x → q.position.x < g.width - p.radius - 5 + p.speed) ∧
      (q.position.y < p.position.y → p.radius + 20 - p.speed < q.position.y) ∧
      (p.position.y < q.position.y → q.position.y < g.height - p.radius - 5 + p.speed) := by
  refine ⟨integrate g p, updatePlayers_lookup g k p h, ?_⟩
  have hx := stepX_bounds g.width p hs
  have hy := stepY_bounds g.height p hs
  unfold integrate
  split_ifs
  · exact ⟨hx.1, hx.2.1, hy.1, hy.2.1, hx.2.2.1, hx.2.2.2, hy.2.2.1, hy.2.2.2⟩
  · exact ⟨min_le_left _ _, le_max_left _ _, min_le_left _ _, le_max_left _ _,
      fun h => absurd h (lt_irrefl _), fun h => absurd h (lt_irrefl _),
      fun h => absurd h (lt_irrefl _), fun h => absurd h (lt_irrefl _)⟩

/-- Witness for C19: an alive player at x = 30 with radius 20 and speed 10 who holds `left`
passes the test `30 > 25` and ends at x = 20, outside the margin `radius + 5 = 25` and
strictly within one step of it (`15 < 20`); holding `up` it also moves from y = 300 to 290. -/
theorem updatePlayers_overshoot_witness :
    lookup "a" moverRoom.players = some cornerMover ∧ (0 : ℚ) ≤ cornerMover.speed ∧
    cornerMover.position.x = 30 ∧ cornerMover.radius + 5 = 25 ∧
    cornerMover.radius + 5 - cornerMover.speed = 15 ∧
    ∃ q, lookup "a" (updatePlayers moverRoom).players = some q ∧
      q.position.x = 20 ∧ q.position.x < cornerMover.radius + 5 ∧
      cornerMover.radius + 5 - cornerMover.speed < q.position.x ∧
      q.position.y = 290 := by
  have hs : (0 : ℚ) ≤ cornerMover.speed := by
    norm_num [cornerMover, samplePlayerAt, samplePlayer]
  obtain ⟨q, h1, -, -, -, -, h6, -⟩ := updatePlayers_overshoot moverRoom "a" cornerMover rfl hs
  have hq : q = integrate moverRoom cornerMover := by
    have h2 := updatePlayers_lookup moverRoom "a" cornerMover rfl
    rw [h1] at h2
    exact Option.some.inj h2
  have hpos : q.position = ⟨20, 290⟩ := by rw [hq]; exact integrate_cornerMover
  have hx : q.position.x = 20 := by rw [hpos]
  have hy : q.position.y = 290 := by rw [hpos]
  have hx0 : cornerMover.position.x = 30 := rfl
  refine ⟨rfl, hs, rfl, by norm_num [cornerMover, samplePlayerAt, samplePlayer],
    by norm_num [cornerMover, samplePlayerAt, samplePlayer], q, h1, hx, ?_,
    h6 (by rw [hx, hx0]; norm_num), hy⟩
  rw [hx]
  norm_num [cornerMover, samplePlayerAt, samplePlayer]

theorem newPlayer_fresh (g : Game) (name : String) (rnd : Rand) (hrnd : rnd.Valid)
    (hw : 0 < g.width) (hh : 0 < g.height) :
    FreshPlayer g.width g.height name (newPlayer g name rnd).1 := by
  have h0 := hrnd 0
  have h1 := hrnd 1
  refine ⟨rfl, rfl, rfl, rfl, rfl, ?_, ?_, ?_, ?_⟩
  · exact mul_nonneg h0.1 hw.le
  · show rnd 0 * g.width < g.width
    calc rnd 0 * g.width < 1 * g.width := mul_lt_mul_of_pos_right h0.2 hw
      _ = g.width := one_mul _
  · exact mul_nonneg h1.1 hh.le
  · show rnd 1 * g.height < g.height
    calc rnd 1 * g.height < 1 * g.height := mul_lt_mul_of_pos_right h1.2 hh
      _ = g.height := one_mul _

/-- The writes of a join by connection `c` to room `r`: `r` is recorded for `c` in the
connection map and every other room is as it was.  If `r` was not registered it now exists
with host `c`, width 1000, height 600, `started = false`, `countDown = 3`,
`gameOver = false`, no items and `c` as its only player.  If `r` was registered (with
positive bounds) only its player map changes: `c` has its new player and every other player
is unchanged.  In both cases the new player has the joined name, speed 10, radius 20, no key
held, `alive = true` and a position with `0 ≤ x < width`, `0 ≤ y < height`. -/
theorem joinRoom_creates_or_extends (s : Server) (socketId room name : String) (rnd : Rand)
    (hrnd : rnd.Valid) :
    lookup socketId (joinRoom s socketId room name rnd).1.sockets = some room ∧
    (∀ r, r ≠ room → lookup r (joinRoom s socketId room name rnd).1.games = lookup r s.games) ∧
    (lookup room s.games = none →
      ∃ g2 p, lookup room (joinRoom s socketId room name rnd).1.games = some g2 ∧
        g2.host = some socketId ∧ g2.width = 1000 ∧ g2.height = 600 ∧
        g2.started = false ∧ g2.countDown = 3 ∧ g2.gameOver = false ∧ g2.items = [] ∧
        g2.players = [(socketId, p)] ∧ FreshPlayer g2.width g2.height name p) ∧
    (∀ g, lookup room s.games = some g → 0 < g.width → 0 < g.height →
      ∃ p, lookup room (joinRoom s socketId room name rnd).1.games =
          some { g with players := assign socketId p g.players } ∧
        lookup socketId (assign socketId p g.players) = some p ∧
        (∀ k, k ≠ socketId → lookup k (assign socketId p g.players) = lookup k g.players) ∧
        FreshPlayer g.width g.height name p) := by
  have hgames : (joinRoom s socketId room name rnd).1.games =
      assign room (addPlayer ((lookup room s.games).getD (newGame socketId))
        socketId name rnd).1 s.games := rfl
  refine ⟨lookup_assign_self _ _ _, ?_, ?_, ?_⟩
  · intro r hr
    rw [hgames]
    exact lookup_assign_ne _ _ _ _ hr
  · intro hnone
    refine ⟨(addPlayer (newGame socketId) socketId name rnd).1,
      (newPlayer (newGame socketId) name rnd).1, ?_, rfl, rfl, rfl, rfl, rfl, rfl, rfl,
      rfl, ?_⟩
    · rw [hgames, lookup_assign_self, hnone]
      rfl
    · exact newPlayer_fresh (newGame socketId) name rnd hrnd (by norm_num [newGame, WIDTH])
        (by norm_num [newGame, HEIGHT])
  · intro g hg hw hh
    refine ⟨(newPlayer g name rnd).1, ?_, lookup_assign_self _ _ _,
      fun k hk => lookup_assign_ne _ _ _ _ hk, newPlayer_fresh g name rnd hrnd hw hh⟩
    rw [hgames, lookup_assign_self, hg]
    rfl

/-- Claim C17 (evaluation at the failing input, and the behaviour everywhere else): a join to
the unregistered room `constructor` raises, as a handler call on the empty server and as an
event of the process, and so does every join to an unregistered room whose name is an own
property name of `Object.prototype`.  Every other join returns and does what the claim
says: it records `r` for `c` and leaves every other room as it was; if `r` was not
registered it now exists with host `c`, width 1000, height 600, `started = false`,
`countDown = 3`, `gameOver = false`, no items and `c` as its only player; if `r` was
registered (with positive bounds) only its player map changes, `c` has its new player and
every other player is unchanged; the new player has the joined name, speed 10, radius 20, no
key held, `alive = true` and a position with `0 ≤ x < width`, `0 ≤ y < height`. -/
theorem join_inherited_name_raises :
    onJoin Server.empty "a" "constructor" "ann" halfRnd = none ∧
    World.init.run [.connect "a", .join "a" "constructor" "ann" halfRnd] = none ∧
    (∀ (s : Server) (socketId room name : String) (rnd : Rand),
      lookup room s.games = none → room ∈ objectPrototypeKeys →
        onJoin s socketId room name rnd = none) ∧
    (∀ (s : Server) (socketId room name : String) (rnd : Rand), rnd.Valid →
      (lookup room s.games = none → room ∉ objectPrototypeKeys) →
      ∃ s2 rnd2, onJoin s socketId room name rnd = some (s2, rnd2) ∧
        lookup socketId s2.sockets = some room ∧
        (∀ r, r ≠ room → lookup r s2.games = lookup r s.games) ∧
        (lookup room s.games = none →
          ∃ g2 p, lookup room s2.games = some g2 ∧
            g2.host = some socketId ∧ g2.width = 1000 ∧ g2.height = 600 ∧
            g2.started = false ∧ g2.countDown = 3 ∧ g2.gameOver = false ∧ g2.items = [] ∧
            g2.players = [(socketId, p)] ∧ FreshPlayer g2.width g2.height name p) ∧
        (∀ g, lookup room s.games = some g → 0 < g.width → 0 < g.height →
          ∃ p, lookup room s2.games = some { g with players := assign socketId p g.players } ∧
            lookup socketId (assign socketId p g.players) = some p ∧
            (∀ k, k ≠ socketId →
              lookup k (assign socketId p g.players) = lookup k g.players) ∧
            FreshPlayer g.width g.height name p)) := by
  refine ⟨rfl, rfl, ?_, ?_⟩
  · intro s socketId room name rnd hnone hmem
    unfold onJoin
    rw [hnone]
    exact if_pos hmem
  · intro s socketId room name rnd hrnd hroom
    have h := joinRoom_creates_or_extends s socketId room name rnd hrnd
    refine ⟨(joinRoom s socketId room name rnd).1, (joinRoom s socketId room name rnd).2,
      ?_, h⟩
    unfold onJoin
    cases hl : lookup room s.games with
    | some g => rfl
    | none => exact if_neg (hroom hl)

/-- Counterexample to C13 as stated: `a` joins the room named by the empty string and
disconnects; the handler's test `if(room)` fails, so `a` is still a player of that room and
still has its entry in the connection map. -/
theorem nameless_room_counterexample :
    (World.init.run namelessTrace).map (fun w =>
      ((lookup "" w.server.games).map (fun g => g.players.map Prod.fst), w.server.sockets)) =
    some (some ["a"], [("a", "")]) := by
  rfl

/-- Claim C14 (evaluation at the failing input): on the empty server the start handler of a
connection that has not joined (`room` is the empty string) raises, as a handler call and
as an event of the process, while the keydown, keyup and disconnect handlers of such a
connection return every server state unchanged. -/
theorem start_before_join_raises :
    onStart Server.empty "" 0 = none ∧
    World.init.run [.connect "a", .start "a" 0] = none ∧
    (∀ s socketId direction, onKeydown s socketId "" direction = some s) ∧
    (∀ s socketId direction, onKeyup s socketId "" direction = some s) ∧
    (∀ s socketId, onDisconnect s socketId "" = some s) := by
  refine ⟨rfl, rfl, ?_, ?_, ?_⟩
  · intro s socketId direction
    simp [onKeydown, keyEvent]
  · intro s socketId direction
    simp [onKeyup, keyEvent]
  · intro s socketId
    simp [onDisconnect]

theorem run_reachable (w w2 : World) (events : List Event) (h : Reachable w)
    (hr : w.run events = some w2) : Reachable w2 := by
  induction events generalizing w with
  | nil =>
    simp only [World.run, Option.some.injEq] at hr
    subst hr
    exact h
  | cons e rest ih =>
    simp only [World.run] at hr
    cases hs : w.step e with
    | none => rw [hs] at hr; cases hr
    | some w1 =>
      rw [hs] at hr
      exact ih w1 (Reachable.step w w1 e h hs) hr

/-- Claim C13 (amended): in every reachable state, for an open connection whose last join
named a room with a non-empty name, that room is registered and the disconnect event
returns: the connection is closed, its entry is gone from the connection map and its player
from the room, the other entries and players are untouched, the room is removed from the
registry if no player is left and kept with the remaining players otherwise, and every
other room is unchanged. -/
theorem disconnect_leaves_room (w : World) (h : Reachable w) (socketId room : String)
    (hc : lookup socketId w.conns = some room) (hroom : room ≠ "") :
    ∃ g w2, lookup room w.server.games = some g ∧ w.step (.disconnect socketId) = some w2 ∧
      lookup socketId w2.conns = none ∧
      lookup socketId w2.server.sockets = none ∧
      (∀ k, k ≠ socketId → lookup k w2.server.sockets = lookup k w.server.sockets) ∧
      lookup socketId (remove socketId g.players) = none ∧
      (∀ k, k ≠ socketId → lookup k (remove socketId g.players) = lookup k g.players) ∧
      ((remove socketId g.players).length = 0 → lookup room w2.server.games = none) ∧
      ((remove socketId g.players).length ≠ 0 →
        lookup room w2.server.games = some { g with players := remove socketId g.players }) ∧
      (∀ r, r ≠ room → lookup r w2.server.games = lookup r w.server.games) := by
  obtain ⟨g, hg, -⟩ := (reachable_inv w h).conns socketId room hc hroom
  obtain ⟨s2, hd, h1, h2, h3, h4, h5, h6, h7⟩ :=
    onDisconnect_effect w.server socketId room g hroom hg
  refine ⟨g, { server := s2, conns := remove socketId w.conns }, hg, ?_,
    lookup_remove_self _ _, h1, h2, h3, h4, h5, h6, h7⟩
  simp only [World.step, hc, hd, Option.map_some']

theorem joinedWorld_reachable : Reachable joinedWorld :=
  Reachable.step _ _ (.join "a" "r" "ann" halfRnd)
    (Reachable.step _ _ (.connect "a") Reachable.init rfl) rfl

/-- Witness for C13: `a` alone in room `r` disconnects. -/
theorem disconnect_leaves_room_witness :
    Reachable joinedWorld ∧ lookup "a" joinedWorld.conns = some "r" ∧ ("r" : String) ≠ "" ∧
    ∃ g w2, lookup "r" joinedWorld.server.games = some g ∧
      joinedWorld.step (.disconnect "a") = some w2 ∧ lookup "a" w2.conns = none ∧
      lookup "a" w2.server.sockets = none := by
  refine ⟨joinedWorld_reachable, rfl, by decide, ?_⟩
  obtain ⟨g, w2, h1, h2, h3, h4, -⟩ :=
    disconnect_leaves_room joinedWorld joinedWorld_reachable "a" "r" rfl (by decide)
  exact ⟨g, w2, h1, h2, h3, h4⟩

/-- Claim C20: in every reachable state (timer callbacks included among the events) every
registered room has at least one player, so `checkHost` finds a first player to elect and
`getRoomCount` of a registered room is never 0. -/
theorem registered_rooms_nonempty (w : World) (h : Reachable w) :
    (∀ x ∈ w.server.games, 0 < x.2.players.length) ∧
    (∀ x ∈ w.server.games, ∃ key, (x.2.players.head?).map Prod.fst = some key) ∧
    (∀ room, getRoomCount w.server room ≠ some 0) := by
  have hi := reachable_inv w h
  refine ⟨?_, ?_, ?_⟩
  · intro x hx
    exact List.length_pos.mpr (hi.rooms x hx).1
  · intro x hx
    have hne := (hi.rooms x hx).1
    cases hp : x.2.players with
    | nil => exact absurd hp hne
    | cons e rest => exact ⟨e.1, rfl⟩
  · intro room hcount
    unfold getRoomCount at hcount
    cases hl : lookup room w.server.games with
    | none => rw [hl] at hcount; cases hcount
    | some g =>
      rw [hl] at hcount
      simp only [Option.map_some', Option.some.injEq] at hcount
      exact (hi.rooms _ (lookup_mem _ _ _ hl)).1 (List.length_eq_zero.mp hcount)

/-- Witness for C20: the state after `a` joined room `r`. -/
theorem registered_rooms_nonempty_witness :
    Reachable joinedWorld ∧ (∀ x ∈ joinedWorld.server.games, 0 < x.2.players.length) ∧
    getRoomCount joinedWorld.server "r" ≠ some 0 :=
  ⟨joinedWorld_reachable, (registered_rooms_nonempty joinedWorld joinedWorld_reachable).1,
    (registered_rooms_nonempty joinedWorld joinedWorld_reachable).2.2 "r"⟩

/-- Claim C16 (evaluation at the failing input): `a` and `b` join `r`, `a` starts the round
and both disconnect within the countdown; the room is removed while its countdown callback
is still pending, and when that callback fires it raises on the missing room.  The
speed-ramp callback, by contrast, never meets a missing room in a reachable state. -/
theorem countdown_fires_on_removed_room :
    (World.init.run orphanTrace).map (fun w =>
      (w.server.games.map Prod.fst, w.server.timeouts.map (fun t => t.room),
        w.server.increaseSpeed)) = some ([], ["r"], none) ∧
    World.init.run (orphanTrace ++ [.countdown halfRnd]) = none ∧
    (∀ w, Reachable w → ∀ room, w.server.increaseSpeed = some room →
      ∃ s2, rampCallback w.server room = some s2) := by
  refine ⟨rfl, rfl, ?_⟩
  intro w hw room hr
  obtain ⟨g, hg⟩ := (reachable_inv w hw).ramp room hr
  unfold rampCallback
  rw [hg]
  exact ⟨_, rfl⟩

/-- Claim C12 (evaluation at the failing input): `a` and `b` join `r1`, `a` joins `r2` and
disconnects, the game loop fires once.  Room `r1` is registered with players `a` and `b`;
its host after the tick is `a`, whose connection is closed and has no entry in the
connection map, while `b` is connected. -/
theorem host_is_departed_ghost :
    (World.init.run ghostTrace).map (fun w =>
      ((lookup "r1" w.server.games).map (fun g => (g.host, g.players.map Prod.fst)),
       w.server.sockets, w.conns)) =
    some (some (some "a", ["a", "b"]), [("b", "r1")], [("b", "r1")]) := by
  rfl

theorem rampCallback_frame (s s2 : Server) (room : String)
    (h : rampCallback s room = some s2) :
    (∀ r, r ≠ room → lookup r s2.games = lookup r s.games) ∧
    (lookup room s2.games).map (fun g => g.items.map (fun i => i.speed)) =
      (lookup room s.games).map (fun g => g.items.map (fun i => i.speed + 5)) := by
  unfold rampCallback at h
  cases hl : lookup room s.games with
  | none => rw [hl] at h; cases h
  | some g =>
    rw [hl] at h
    simp only [Option.some.injEq] at h
    subst h
    constructor
    · intro r hr
      exact lookup_assign_ne room r _ s.games hr
    · show (lookup room (assign room _ s.games)).map _ = _
      rw [lookup_assign_self]
      simp [increaseItemSpeed]

/-- Claim C15 (evaluation at the failing input): rooms `r1` and `r2` are started and both
countdowns have fired, so both hold 15 items; the only live interval is the one of `r2`.
Its firing adds 5 to the speed of every item of `r2` and leaves room `r1` exactly as it
was: the items of `r1` get no increment. -/
theorem ramp_skips_first_room :
    ∃ w w2, World.init.run twoRoomTrace = some w ∧ Reachable w ∧ w.step .ramp = some w2 ∧
      (lookup "r1" w.server.games).map (fun g => g.items.length) = some 15 ∧
      (lookup "r2" w.server.games).map (fun g => g.items.length) = some 15 ∧
      w.server.increaseSpeed = some "r2" ∧
      lookup "r1" w2.server.games = lookup "r1" w.server.games ∧
      (lookup "r2" w2.server.games).map (fun g => g.items.map (fun i => i.speed)) =
        (lookup "r2" w.server.games).map (fun g => g.items.map (fun i => i.speed + 5)) := by
  have hproj : (World.init.run twoRoomTrace).map (fun w =>
      ((lookup "r1" w.server.games).map (fun g => g.items.length),
       (lookup "r2" w.server.games).map (fun g => g.items.length),
       w.server.increaseSpeed)) = some (some 15, some 15, some "r2") := rfl
  cases hrun : World.init.run twoRoomTrace with
  | none => rw [hrun] at hproj; cases hproj
  | some w =>
    rw [hrun] at hproj
    simp only [Option.map_some', Option.some.injEq, Prod.mk.injEq] at hproj
    obtain ⟨h1, h2, h3⟩ := hproj
    cases hg : lookup "r2" w.server.games with
    | none => rw [hg] at h2; cases h2
    | some g2 =>
      have hstep : w.step .ramp = some { w with server :=
          { w.server with games := assign "r2" (increaseItemSpeed g2 5) w.server.games } } := by
        simp [World.step, h3, rampCallback, hg]
      have hramp : rampCallback w.server "r2" = some
          { w.server with games := assign "r2" (increaseItemSpeed g2 5) w.server.games } := by
        simp [rampCallback, hg]
      have hf := rampCallback_frame _ _ _ hramp
      refine ⟨w, _, rfl, run_reachable _ _ _ Reachable.init hrun, hstep, h1, ?_, h3,
        hf.1 "r1" (by decide), ?_⟩
      · exact h2
      · exact hf.2

end SocketioServer
